import Mathlib

/-!
Verification of the `longest_match` family from zlib-ng's `match_p.h`.

The file shallowly embeds the three conditionally-compiled variants of
`longest_match` (the scalar `std1` variant, the 16-bit `std2` variant and the
ctzl-based `std3` variant) as Lean functions over an explicit
`deflate_state`-like record, and proves / refutes the frozen claims about them.

Modelling conventions:
* the window is a total function `Nat → UInt8` (the C code deliberately reads
  stale/uninitialized bytes past the valid input; a total function models
  "every address is readable and holds some byte");
* the `prev` chain array is a total function `Nat → Nat`, read exactly as the
  C code reads it, at index `cur_match &&& w_mask`;
* C `unsigned` arithmetic that can wrap (the `--chain_length` when the
  quartered budget is zero) is modelled explicitly by `dec32` with modulus
  `2 ^ 32`;
* multi-byte loads compared for equality (`uint16_t` / `uint32_t` / `uint64_t`
  little-endian loads in the C code) are modelled as tuples of the loaded
  bytes; for genuine bytes, equality of the loads is exactly componentwise
  equality of the bytes, and the `__builtin_ctzl(xor)/8` trick is modelled as
  the index of the first differing byte in the 8-byte block;
* the chain-walk loops are modelled with an explicit fuel argument large
  enough to cover the wrapped budget (`max_chain_length + 2 ^ 32`); the
  result is an `Option`, with `none` meaning "fuel exhausted", and totality
  (the fuel always suffices) is proved as a theorem;
* the traced (`…T`) variants additionally return the list of examined chain
  candidates, in order; this ghost trace only accumulates information and the
  untraced functions are projections of the traced ones.
-/

namespace ZlibNg

/-- `MAX_MATCH` from the deflate headers: the hard cap on a match length. -/
def MAX_MATCH : Nat := 258

/-- The fields of `deflate_state` read or written by `longest_match`, plus
`max_dist` (the value of the `MAX_DIST(s)` macro, `w_size - MIN_LOOKAHEAD`,
whose definition is outside this file's source) and `trigger_level`.

`trigger_level` — Modelled from the spec: `TRIGGER_LEVEL` is a fixed
compression-effort threshold defined outside `match_p.h`; below it the search
gives up after one non-improving fully-extended candidate. It is carried as a
parameter since only comparisons `level < TRIGGER_LEVEL` matter. -/
structure DState where
  window : Nat → UInt8
  prev : Nat → Nat
  w_mask : Nat
  strstart : Nat
  prev_length : Nat
  lookahead : Nat
  max_chain_length : Nat
  nice_match : Nat
  good_match : Nat
  level : Nat
  match_start : Nat
  max_dist : Nat
  trigger_level : Nat

/-- The C `--chain_length` on a 32-bit `unsigned`: decrement with wrap-around
at zero. -/
def dec32 (n : Nat) : Nat := if n = 0 then 2 ^ 32 - 1 else n - 1

/-- `limit = s->strstart > MAX_DIST(s) ? s->strstart - MAX_DIST(s) : 0`. -/
def limitOf (s : DState) : Nat :=
  if s.strstart > s.max_dist then s.strstart - s.max_dist else 0

/-- Reference comparator (the "naive byte-by-byte scan" of the spec): the
offset of the first position `j ∈ [k, MAX_MATCH)` where the bytes at `ss + j`
and `cs + j` differ, or `MAX_MATCH` if none does. -/
def firstMismatch (w : Nat → UInt8) (ss cs k : Nat) : Nat :=
  if h : k < MAX_MATCH then
    if w (ss + k) = w (cs + k) then firstMismatch w ss cs (k + 1) else k
  else MAX_MATCH
termination_by MAX_MATCH - k
decreasing_by simp only [MAX_MATCH] at *; omega

namespace std1

/-- One group of the eight chained pre-increment byte comparisons
`*++scan == *++match && …` of the std1 inner loop, starting with both
pointers at offset `k`.  Returns the final offset of `scan` together with
whether all eight comparisons succeeded. -/
def mismatch8 (w : Nat → UInt8) (ss cs k : Nat) : Nat × Bool :=
  if w (ss + (k + 1)) ≠ w (cs + (k + 1)) then (k + 1, false)
  else if w (ss + (k + 2)) ≠ w (cs + (k + 2)) then (k + 2, false)
  else if w (ss + (k + 3)) ≠ w (cs + (k + 3)) then (k + 3, false)
  else if w (ss + (k + 4)) ≠ w (cs + (k + 4)) then (k + 4, false)
  else if w (ss + (k + 5)) ≠ w (cs + (k + 5)) then (k + 5, false)
  else if w (ss + (k + 6)) ≠ w (cs + (k + 6)) then (k + 6, false)
  else if w (ss + (k + 7)) ≠ w (cs + (k + 7)) then (k + 7, false)
  else if w (ss + (k + 8)) ≠ w (cs + (k + 8)) then (k + 8, false)
  else (k + 8, true)

/-- The std1 extension loop
`do { } while (*++scan == *++match && … && scan < strend);`
with `strend` at offset `MAX_MATCH`.  Both pointers start at offset `k`
(entered with `k = 2`); the result is the final offset of `scan`, which is
exactly the `len` the C code computes as `MAX_MATCH - (strend - scan)`.
The structural `fuel` argument (32 at the entry point) covers the at most 31
groups the `scan < strend` guard allows; it exists only so the recursion is
structural, and `scanLoop_eq_firstMismatch` shows the result. -/
def scanLoop (w : Nat → UInt8) (ss cs : Nat) : Nat → Nat → Nat
  | fuel, k =>
    match mismatch8 w ss cs k with
    | (r, false) => r
    | (_, true) =>
      if k + 8 < MAX_MATCH then
        match fuel with
        | 0 => k + 8
        | Nat.succ f => scanLoop w ss cs f (k + 8)
      else k + 8

/-- The std1 chain-walk loop (`do { … } while ((cur_match = prev[cur_match &
wmask]) > limit && --chain_length);`), with ghost trace of the candidates
examined, in order.  Loop-carried variables: `cur_match`, `chain_length`,
`best_len`, the probe bytes `scan_end1 = scan[best_len-1]` and
`scan_end = scan[best_len]`, and the `s->match_start` field `mstart`. -/
def loopT (s : DState) (fuel cur_match chain_length best_len : Nat)
    (scan_end1 scan_end : UInt8) (mstart : Nat) :
    Option (Nat × Nat × List Nat) :=
  match fuel with
  | 0 => none
  | Nat.succ fuel =>
    if cur_match ≥ s.strstart then some (best_len, mstart, [])
    else
      if s.window (cur_match + best_len) ≠ scan_end ∨
         s.window (cur_match + best_len - 1) ≠ scan_end1 ∨
         s.window cur_match ≠ s.window s.strstart ∨
         s.window (cur_match + 1) ≠ s.window (s.strstart + 1) then
        -- continue: advance to the next chain entry
        let ncur := s.prev (cur_match &&& s.w_mask)
        if ncur > limitOf s then
          let ncl := dec32 chain_length
          if ncl ≠ 0 then
            (loopT s fuel ncur ncl best_len scan_end1 scan_end mstart).map
              (fun r => (r.1, r.2.1, cur_match :: r.2.2))
          else some (best_len, mstart, [cur_match])
        else some (best_len, mstart, [cur_match])
      else
        let len := scanLoop s.window s.strstart cur_match 32 2
        if len > best_len then
          if len ≥ min s.nice_match s.lookahead then
            some (len, cur_match, [cur_match])
          else
            let ncur := s.prev (cur_match &&& s.w_mask)
            if ncur > limitOf s then
              let ncl := dec32 chain_length
              if ncl ≠ 0 then
                (loopT s fuel ncur ncl len
                    (s.window (s.strstart + len - 1)) (s.window (s.strstart + len))
                    cur_match).map
                  (fun r => (r.1, r.2.1, cur_match :: r.2.2))
              else some (len, cur_match, [cur_match])
            else some (len, cur_match, [cur_match])
        else
          if s.level < s.trigger_level then some (best_len, mstart, [cur_match])
          else
            let ncur := s.prev (cur_match &&& s.w_mask)
            if ncur > limitOf s then
              let ncl := dec32 chain_length
              if ncl ≠ 0 then
                (loopT s fuel ncur ncl best_len scan_end1 scan_end mstart).map
                  (fun r => (r.1, r.2.1, cur_match :: r.2.2))
              else some (best_len, mstart, [cur_match])
            else some (best_len, mstart, [cur_match])

/-- std1 `longest_match`, traced: returns `(best_len, match_start, trace)`
before the final clamp against `lookahead`. -/
def longest_matchT (s : DState) (cur_match : Nat) : Option (Nat × Nat × List Nat) :=
  let best_len := if s.prev_length ≠ 0 then s.prev_length else 1
  let chain_length :=
    if best_len ≥ s.good_match then s.max_chain_length >>> 2 else s.max_chain_length
  loopT s (s.max_chain_length + 2 ^ 32) cur_match chain_length best_len
    (s.window (s.strstart + best_len - 1)) (s.window (s.strstart + best_len))
    s.match_start

/-- std1 `longest_match`: the returned length (with the final
`if (best_len <= s->lookahead) return best_len; return s->lookahead;` clamp)
together with the final value of `s->match_start`. -/
def longest_match (s : DState) (cur_match : Nat) : Option (Nat × Nat) :=
  (longest_matchT s cur_match).map
    (fun r => (if r.1 ≤ s.lookahead then r.1 else s.lookahead, r.2.1))

end std1

namespace std2

/-- A 16-bit little-endian load at address `i`, modelled as the pair of the
two loaded bytes (for genuine bytes, equality of the `uint16_t` values is
exactly componentwise equality of the bytes). -/
def chunk (w : Nat → UInt8) (i : Nat) : UInt8 × UInt8 := (w i, w (i + 1))

/-- The std2 extension loop: groups of four 16-bit chunk comparisons, both
pointers starting at offset `k` (entered with `k = 1`), with the
`scan < strend` check (`strend` at offset `MAX_MATCH - 1`) after each group.
Result: the final offset of `scan`, i.e. the start offset of the first
mismatching chunk, or `MAX_MATCH - 1` if all chunks matched. -/
def scanChunks (w : Nat → UInt8) (ss cs : Nat) : Nat → Nat → Nat
  | fuel, k =>
    if w (ss + k) ≠ w (cs + k) ∨ w (ss + (k + 1)) ≠ w (cs + (k + 1)) then k
    else if w (ss + (k + 2)) ≠ w (cs + (k + 2)) ∨ w (ss + (k + 3)) ≠ w (cs + (k + 3)) then k + 2
    else if w (ss + (k + 4)) ≠ w (cs + (k + 4)) ∨ w (ss + (k + 5)) ≠ w (cs + (k + 5)) then k + 4
    else if w (ss + (k + 6)) ≠ w (cs + (k + 6)) ∨ w (ss + (k + 7)) ≠ w (cs + (k + 7)) then k + 6
    else if k + 8 < MAX_MATCH - 1 then
      match fuel with
      | 0 => k + 8
      | Nat.succ f => scanChunks w ss cs f (k + 8)
    else k + 8

/-- The std2 match length: run the chunked scan from offset 1, then the final
`if (*scan == *match) scan++;` fix-up, then
`len = (MAX_MATCH - 1) - (int)(strend - scan)`, which equals the final offset
of `scan`. -/
def extLen (w : Nat → UInt8) (ss cs : Nat) : Nat :=
  let r := scanChunks w ss cs 32 1
  if w (ss + r) = w (cs + r) then r + 1 else r

/-- The std2 chain-walk loop
(`do { … } while (--chain_length && (cur_match = prev[cur_match & wmask]) > limit);`).
Loop-carried: `cur_match`, `chain_length`, `best_len`, the 16-bit probes
`scan_start` (at `scan`) and `scan_end` (at `scan + best_len - 1`), and
`mstart`.  The source's two consecutive `continue` rejection tests are merged
into one disjunction (identical control flow). -/
def loop (s : DState) (fuel cur_match chain_length best_len : Nat)
    (scan_start scan_end : UInt8 × UInt8) (mstart : Nat) :
    Option (Nat × Nat) :=
  match fuel with
  | 0 => none
  | Nat.succ fuel =>
    if cur_match ≥ s.strstart then some (best_len, mstart)
    else
      if chunk s.window (cur_match + best_len - 1) ≠ scan_end ∨
         chunk s.window cur_match ≠ scan_start then
        -- continue: decrement the budget, then advance
        let ncl := dec32 chain_length
        if ncl ≠ 0 then
          let ncur := s.prev (cur_match &&& s.w_mask)
          if ncur > limitOf s then
            loop s fuel ncur ncl best_len scan_start scan_end mstart
          else some (best_len, mstart)
        else some (best_len, mstart)
      else
        let len := extLen s.window s.strstart cur_match
        if len > best_len then
          if len ≥ min s.nice_match s.lookahead then
            some (len, cur_match)
          else
            let ncl := dec32 chain_length
            if ncl ≠ 0 then
              let ncur := s.prev (cur_match &&& s.w_mask)
              if ncur > limitOf s then
                loop s fuel ncur ncl len scan_start
                  (chunk s.window (s.strstart + len - 1)) cur_match
              else some (len, cur_match)
            else some (len, cur_match)
        else
          if s.level < s.trigger_level then some (best_len, mstart)
          else
            let ncl := dec32 chain_length
            if ncl ≠ 0 then
              let ncur := s.prev (cur_match &&& s.w_mask)
              if ncur > limitOf s then
                loop s fuel ncur ncl best_len scan_start scan_end mstart
              else some (best_len, mstart)
            else some (best_len, mstart)

/-- std2 `longest_match`: initialization as in the source, then the clamped
return value paired with the final `s->match_start`. -/
def longest_match (s : DState) (cur_match : Nat) : Option (Nat × Nat) :=
  let best_len := if s.prev_length ≠ 0 then s.prev_length else 1
  let chain_length :=
    if best_len ≥ s.good_match then s.max_chain_length >>> 2 else s.max_chain_length
  (loop s (s.max_chain_length + 2 ^ 32) cur_match chain_length best_len
      (chunk s.window s.strstart) (chunk s.window (s.strstart + best_len - 1))
      s.match_start).map
    (fun r => (if r.1 ≤ s.lookahead then r.1 else s.lookahead, r.2))

end std2

namespace std3

/-- A 32-bit little-endian load at address `i`, modelled as the 4-tuple of the
loaded bytes. -/
def word4 (w : Nat → UInt8) (i : Nat) : UInt8 × UInt8 × UInt8 × UInt8 :=
  (w i, w (i + 1), w (i + 2), w (i + 3))

/-- The `__builtin_ctzl(sv ^ mv) / 8` trick on one 8-byte little-endian block
at offset `k`: the index (0–7) of the first differing byte, or `none` if the
two blocks are equal (`xor == 0`). -/
def firstDiff8 (w : Nat → UInt8) (ss cs k : Nat) : Option Nat :=
  if w (ss + k) ≠ w (cs + k) then some 0
  else if w (ss + (k + 1)) ≠ w (cs + (k + 1)) then some 1
  else if w (ss + (k + 2)) ≠ w (cs + (k + 2)) then some 2
  else if w (ss + (k + 3)) ≠ w (cs + (k + 3)) then some 3
  else if w (ss + (k + 4)) ≠ w (cs + (k + 4)) then some 4
  else if w (ss + (k + 5)) ≠ w (cs + (k + 5)) then some 5
  else if w (ss + (k + 6)) ≠ w (cs + (k + 6)) then some 6
  else if w (ss + (k + 7)) ≠ w (cs + (k + 7)) then some 7
  else none

/-- The std3 extension loop: 8-byte blocks from offset `k` (entered with
`k = 4`), while `scan < strend` (`strend` at offset `MAX_MATCH`); on a
differing block `scan` advances to the first differing byte.  Result: the
final offset of `scan`, before the `if (scan > strend) scan = strend;`
clamp. -/
def scanBlocks (w : Nat → UInt8) (ss cs : Nat) : Nat → Nat → Nat
  | fuel, k =>
    match firstDiff8 w ss cs k with
    | some j => k + j
    | none =>
      if k + 8 < MAX_MATCH then
        match fuel with
        | 0 => k + 8
        | Nat.succ f => scanBlocks w ss cs f (k + 8)
      else k + 8

/-- The std3 chain walk, traced.  The source's inner cheap-rejection loop
(which advances `cur_match`/`chain_length` itself and sets `cont = 0` to break
out) and the outer `while` advance are the same
`(cur_match = prev[cur_match & wmask]) > limit && --chain_length != 0` step,
so the two nested loops flatten into one.  std3 has no
`cur_match >= strstart` runtime check (only `Assert(cur_match < s->strstart)`)
and no low-level early stop on a non-improving candidate. -/
def loopT (s : DState) (fuel cur_match chain_length best_len : Nat)
    (scan_end : UInt8 × UInt8 × UInt8 × UInt8) (mstart : Nat) :
    Option (Nat × Nat × List Nat) :=
  match fuel with
  | 0 => none
  | Nat.succ fuel =>
    if word4 s.window (cur_match + best_len - 3) ≠ scan_end ∨
       word4 s.window cur_match ≠ word4 s.window s.strstart then
      let ncur := s.prev (cur_match &&& s.w_mask)
      if ncur > limitOf s ∧ dec32 chain_length ≠ 0 then
        (loopT s fuel ncur (dec32 chain_length) best_len scan_end mstart).map
          (fun r => (r.1, r.2.1, cur_match :: r.2.2))
      else some (best_len, mstart, [cur_match])
    else
      let len := min (scanBlocks s.window s.strstart cur_match 32 4) MAX_MATCH
      if len > best_len then
        if len ≥ min s.nice_match s.lookahead then
          some (len, cur_match, [cur_match])
        else
          let ncur := s.prev (cur_match &&& s.w_mask)
          if ncur > limitOf s ∧ dec32 chain_length ≠ 0 then
            (loopT s fuel ncur (dec32 chain_length) len
                (word4 s.window (s.strstart + len - 3)) cur_match).map
              (fun r => (r.1, r.2.1, cur_match :: r.2.2))
          else some (len, cur_match, [cur_match])
      else
        let ncur := s.prev (cur_match &&& s.w_mask)
        if ncur > limitOf s ∧ dec32 chain_length ≠ 0 then
          (loopT s fuel ncur (dec32 chain_length) best_len scan_end mstart).map
            (fun r => (r.1, r.2.1, cur_match :: r.2.2))
        else some (best_len, mstart, [cur_match])

/-- std3 `longest_match`, traced: note `best_len = s->prev_length` with no
`? : 1` fallback, and the quartering test is on `s->prev_length` directly. -/
def longest_matchT (s : DState) (cur_match : Nat) : Option (Nat × Nat × List Nat) :=
  let best_len := s.prev_length
  let chain_length :=
    if s.prev_length ≥ s.good_match then s.max_chain_length >>> 2 else s.max_chain_length
  loopT s (s.max_chain_length + 2 ^ 32) cur_match chain_length best_len
    (word4 s.window (s.strstart + best_len - 3)) s.match_start

/-- std3 `longest_match` with the final clamp against `lookahead`. -/
def longest_match (s : DState) (cur_match : Nat) : Option (Nat × Nat) :=
  (longest_matchT s cur_match).map
    (fun r => (if r.1 ≤ s.lookahead then r.1 else s.lookahead, r.2.1))

end std3

namespace std1

/-- The full state transition of a std1 `longest_match` call.  The only
`deflate_state` field the source writes is `s->match_start`
(`s->match_start = cur_match;`); every other field is only read, so the
post-state is the pre-state with `match_start` replaced by the second
returned component. -/
def longest_matchS (s : DState) (cur_match : Nat) : Option (Nat × DState) :=
  (longest_match s cur_match).map (fun r => (r.1, { s with match_start := r.2 }))

end std1

/-! ### Concrete scenarios used by witnesses and counterexamples -/

/-- Window for `S1`: candidate region at 10, scan region at 20; the candidate
agrees with the scan on byte offsets 0,1,3,4,5,6,7 but differs at offsets 2
and 8. -/
def w1 : Nat → UInt8 := fun i =>
  if i = 12 then 77 else if i = 18 then 88
  else if 10 ≤ i ∧ i < 20 then UInt8.ofNat (i - 10)
  else if 20 ≤ i ∧ i < 30 then UInt8.ofNat (i - 20) else 0

/-- A state whose single chain candidate (position 10) matches the scan
string except at byte offset 2 — the byte the std1 comparator never checks. -/
def S1 : DState :=
  { window := w1, prev := fun _ => 0, w_mask := 1023, strstart := 20,
    prev_length := 4, lookahead := 20, max_chain_length := 16, nice_match := 258,
    good_match := 100, level := 6, match_start := 999, max_dist := 4096,
    trigger_level := 6 }

/-- Identity-byte window: position `i` holds byte `i mod 256`. -/
def w2 : Nat → UInt8 := fun i => UInt8.ofNat i

/-- A state with `prev_length = 300 > MAX_MATCH` and `lookahead = 400`; the
sole candidate is rejected by the cheap probe, so the initial `best_len`
flows through to the return value. -/
def S2 : DState :=
  { window := w2, prev := fun _ => 0, w_mask := 1023, strstart := 100,
    prev_length := 300, lookahead := 400, max_chain_length := 16, nice_match := 258,
    good_match := 1000, level := 6, match_start := 999, max_dist := 4096,
    trigger_level := 6 }

/-- Like `S2` but with `lookahead = 3 < prev_length = 5`. -/
def S3 : DState := { S2 with prev_length := 5, lookahead := 3 }

/-- Window for the tie-break scenario `S4`: the scan string at 30 matches the
candidate at 20 and the candidate at 10 for exactly 6 bytes each. -/
def w4 : Nat → UInt8 := fun i =>
  (#[0,0,0,0,0,0,0,0,0,0,
     9,8,7,6,5,4,12,0,0,0,
     9,8,7,6,5,4,11,0,0,0,
     9,8,7,6,5,4,3,2,0,0].getD i 0)

/-- Tie-break scenario: chain 20 → 10, both candidates yield length 6; the
nearer one (20) must be recorded. -/
def S4 : DState :=
  { window := w4, prev := fun i => if i = 20 then 10 else 0, w_mask := 1023,
    strstart := 30, prev_length := 2, lookahead := 10, max_chain_length := 16,
    nice_match := 258, good_match := 100, level := 6, match_start := 999,
    max_dist := 4096, trigger_level := 6 }

/-- Window for the early-stop scenario `S5`: the candidate at 30 matches 4
bytes of the scan string at 40; the farther candidate at 20 matches 10. -/
def w5 : Nat → UInt8 := fun i =>
  if 40 ≤ i ∧ i < 50 then UInt8.ofNat (i - 40 + 1)
  else if 30 ≤ i ∧ i < 34 then UInt8.ofNat (i - 30 + 1)
  else if i = 34 then 99
  else if 20 ≤ i ∧ i < 30 then UInt8.ofNat (i - 20 + 1)
  else 0

/-- Early-stop scenario: `nice_match = 4`, head candidate yields 4, a later
chain entry would yield 10 but must not be examined. -/
def S5 : DState :=
  { window := w5, prev := fun i => if i = 30 then 20 else 0, w_mask := 1023,
    strstart := 40, prev_length := 2, lookahead := 10, max_chain_length := 16,
    nice_match := 4, good_match := 100, level := 6, match_start := 999,
    max_dist := 4096, trigger_level := 6 }

/-- Window for `S6`: a perfect copy of the scan string at distance exactly
`max_dist` (position 904 versus 5000). -/
def w6 : Nat → UInt8 := fun i =>
  if 5000 ≤ i ∧ i < 5010 then UInt8.ofNat (i - 5000 + 1)
  else if 904 ≤ i ∧ i < 914 then UInt8.ofNat (i - 904 + 1)
  else 0

/-- Distance-limit scenario: the chain links the (rejected) head 4999 to the
entry at distance exactly `max_dist` (904 = 5000 − 4096 = `limit`). -/
def S6 : DState :=
  { window := w6, prev := fun i => if i = 903 then 904 else 0, w_mask := 1023,
    strstart := 5000, prev_length := 2, lookahead := 10, max_chain_length := 16,
    nice_match := 258, good_match := 100, level := 6, match_start := 999,
    max_dist := 4096, trigger_level := 6 }

/-- Window for `S7`: candidate at 40 agrees with the scan string at 60 on
byte offsets 0–3 and 7–10 but differs at offset 4; candidate at 20 differs
inside both probe regions. -/
def w7 : Nat → UInt8 := fun i =>
  (#[0,0,0,0,0,0,0,0,0,0,0,0,0,0,0,0,0,0,0,0,
     1,2,3,4,0,0,0,55,0,0,0,0,0,0,0,0,0,0,0,0,
     1,2,3,4,99,0,0,8,9,10,11,0,0,0,0,0,0,0,0,0,
     1,2,3,4,5,6,7,8,9,10,11,0,0,0,0,0,0,0,0,0].getD i 0)

/-- Low-effort-level scenario (`level = 1 < trigger_level`): the head
candidate 40 fully extends to length 4 ≤ best_len = 10 (non-improving), and
the chain continues to 20. -/
def S7 : DState :=
  { window := w7, prev := fun i => if i = 40 then 20 else 0, w_mask := 1023,
    strstart := 60, prev_length := 10, lookahead := 20, max_chain_length := 16,
    nice_match := 258, good_match := 100, level := 1, match_start := 999,
    max_dist := 4096, trigger_level := 6 }

/-- Budget-wrap scenario: `max_chain_length = 2` is quartered to 0 (since
`best_len = 2 ≥ good_match = 1`), so the unsigned `--chain_length` wraps and
the chain 90 → 80 → 70 is walked past the nominal budget. -/
def S9 : DState :=
  { window := w2, prev := fun i => if i = 90 then 80 else if i = 80 then 70 else 0,
    w_mask := 1023, strstart := 100,
    prev_length := 2, lookahead := 10, max_chain_length := 2, nice_match := 258,
    good_match := 1, level := 6, match_start := 999, max_dist := 4096,
    trigger_level := 6 }


/-- Constant-byte window state: the hash-key invariant holds trivially, all
three variants agree (`claim_C1` witness scenario). -/
def SC1 : DState :=
  { window := fun _ => 0, prev := fun _ => 40, w_mask := 1023, strstart := 50,
    prev_length := 3, lookahead := 6, max_chain_length := 4, nice_match := 258,
    good_match := 100, level := 6, match_start := 999, max_dist := 4096,
    trigger_level := 6 }

/-! ### Basic lemmas about the reference comparator -/

theorem firstMismatch_out (w : Nat → UInt8) (ss cs k : Nat) (hk : ¬ k < MAX_MATCH) :
    firstMismatch w ss cs k = MAX_MATCH := by
  rw [firstMismatch]
  simp [hk]

theorem firstMismatch_step_eq (w : Nat → UInt8) (ss cs k : Nat) (hk : k < MAX_MATCH)
    (h : w (ss + k) = w (cs + k)) :
    firstMismatch w ss cs k = firstMismatch w ss cs (k + 1) := by
  rw [firstMismatch]
  simp [hk, h]

theorem firstMismatch_step_ne (w : Nat → UInt8) (ss cs k : Nat) (hk : k < MAX_MATCH)
    (h : w (ss + k) ≠ w (cs + k)) :
    firstMismatch w ss cs k = k := by
  rw [firstMismatch]
  simp [hk, h]

theorem firstMismatch_le (w : Nat → UInt8) (ss cs : Nat) :
    ∀ n k, MAX_MATCH - k ≤ n → firstMismatch w ss cs k ≤ MAX_MATCH := by
  intro n
  induction n with
  | zero =>
    intro k hk
    have hk' : ¬ k < MAX_MATCH := by omega
    rw [firstMismatch_out w ss cs k hk']
  | succ n ih =>
    intro k hk
    by_cases hlt : k < MAX_MATCH
    · by_cases h : w (ss + k) = w (cs + k)
      · rw [firstMismatch_step_eq w ss cs k hlt h]
        exact ih (k + 1) (by omega)
      · rw [firstMismatch_step_ne w ss cs k hlt h]
        omega
    · rw [firstMismatch_out w ss cs k hlt]

theorem firstMismatch_ge (w : Nat → UInt8) (ss cs : Nat) :
    ∀ n k, MAX_MATCH - k ≤ n → k ≤ MAX_MATCH → k ≤ firstMismatch w ss cs k := by
  intro n
  induction n with
  | zero =>
    intro k hk hk'
    have : k = MAX_MATCH := by omega
    subst this
    rw [firstMismatch_out w ss cs _ (by omega)]
  | succ n ih =>
    intro k hk hk'
    by_cases hlt : k < MAX_MATCH
    · by_cases h : w (ss + k) = w (cs + k)
      · rw [firstMismatch_step_eq w ss cs k hlt h]
        have := ih (k + 1) (by omega) (by omega)
        omega
      · rw [firstMismatch_step_ne w ss cs k hlt h]
    · have : k = MAX_MATCH := by omega
      subst this
      rw [firstMismatch_out w ss cs _ (by omega)]

theorem firstMismatch_le_of_ne (w : Nat → UInt8) (ss cs : Nat) :
    ∀ n k j, MAX_MATCH - k ≤ n → k ≤ j → j < MAX_MATCH →
      w (ss + j) ≠ w (cs + j) → firstMismatch w ss cs k ≤ j := by
  intro n
  induction n with
  | zero =>
    intro k j hk hj hj' h
    omega
  | succ n ih =>
    intro k j hk hj hj' h
    have hlt : k < MAX_MATCH := by omega
    by_cases heq : w (ss + k) = w (cs + k)
    · rcases Nat.eq_or_lt_of_le hj with rfl | hjlt
      · exact absurd heq h
      · rw [firstMismatch_step_eq w ss cs k hlt heq]
        exact ih (k + 1) j (by omega) (by omega) hj' h
    · rw [firstMismatch_step_ne w ss cs k hlt heq]
      omega

theorem firstMismatch_congr_run (w : Nat → UInt8) (ss cs : Nat) :
    ∀ n k j, j - k ≤ n → k ≤ j → j ≤ MAX_MATCH →
      (∀ i, k ≤ i → i < j → w (ss + i) = w (cs + i)) →
      firstMismatch w ss cs k = firstMismatch w ss cs j := by
  intro n
  induction n with
  | zero =>
    intro k j hn hkj _ _
    have : k = j := by omega
    rw [this]
  | succ n ih =>
    intro k j hn hkj hj hrun
    rcases Nat.eq_or_lt_of_le hkj with rfl | hlt
    · rfl
    · rw [firstMismatch_step_eq w ss cs k (by omega) (hrun k le_rfl hlt)]
      exact ih (k + 1) j (by omega) (by omega) hj (fun i hi hi' => hrun i (by omega) hi')

theorem firstMismatch_eq_of_run (w : Nat → UInt8) (ss cs k j : Nat)
    (hkj : k ≤ j) (hj : j < MAX_MATCH)
    (hrun : ∀ i, k ≤ i → i < j → w (ss + i) = w (cs + i))
    (hne : w (ss + j) ≠ w (cs + j)) :
    firstMismatch w ss cs k = j := by
  rw [firstMismatch_congr_run w ss cs (j - k) k j le_rfl hkj (by omega) hrun]
  exact firstMismatch_step_ne w ss cs j hj hne

theorem firstMismatch_eq_cap_of_run (w : Nat → UInt8) (ss cs k : Nat)
    (hk : k ≤ MAX_MATCH)
    (hrun : ∀ i, k ≤ i → i < MAX_MATCH → w (ss + i) = w (cs + i)) :
    firstMismatch w ss cs k = MAX_MATCH := by
  rw [firstMismatch_congr_run w ss cs (MAX_MATCH - k) k MAX_MATCH le_rfl hk le_rfl hrun]
  exact firstMismatch_out w ss cs MAX_MATCH (by omega)

/-! ### The std1 extension loop computes the reference first-mismatch offset -/

theorem scanLoop_eq_firstMismatch (w : Nat → UInt8) (ss cs : Nat) :
    ∀ n k, 258 - k ≤ 8 * n → k % 8 = 2 → k ≤ 250 →
      std1.scanLoop w ss cs n k = firstMismatch w ss cs (k + 1) := by
  intro n
  induction n with
  | zero =>
    intro k hn hm hk
    omega
  | succ n ih =>
    intro k hn hm hk
    rw [std1.scanLoop]
    by_cases h1 : w (ss + (k + 1)) = w (cs + (k + 1))
    · by_cases h2 : w (ss + (k + 2)) = w (cs + (k + 2))
      · by_cases h3 : w (ss + (k + 3)) = w (cs + (k + 3))
        · by_cases h4 : w (ss + (k + 4)) = w (cs + (k + 4))
          · by_cases h5 : w (ss + (k + 5)) = w (cs + (k + 5))
            · by_cases h6 : w (ss + (k + 6)) = w (cs + (k + 6))
              · by_cases h7 : w (ss + (k + 7)) = w (cs + (k + 7))
                · have hrun7 : ∀ x, k + 1 ≤ x → x < k + 8 → w (ss + x) = w (cs + x) := by
                    intro x hx hx'
                    have : x = k + 1 ∨ x = k + 2 ∨ x = k + 3 ∨ x = k + 4 ∨
                        x = k + 5 ∨ x = k + 6 ∨ x = k + 7 := by omega
                    rcases this with rfl | rfl | rfl | rfl | rfl | rfl | rfl <;> assumption
                  by_cases h8 : w (ss + (k + 8)) = w (cs + (k + 8))
                  · have e : std1.mismatch8 w ss cs k = (k + 8, true) := by
                      simp [std1.mismatch8, h1, h2, h3, h4, h5, h6, h7, h8]
                    rw [e]
                    show (if k + 8 < MAX_MATCH then std1.scanLoop w ss cs n (k + 8)
                        else k + 8) = firstMismatch w ss cs (k + 1)
                    have hrun8 : ∀ x, k + 1 ≤ x → x < k + 8 + 1 →
                        w (ss + x) = w (cs + x) := by
                      intro x hx hx'
                      rcases Nat.lt_or_ge x (k + 8) with hlt | hge
                      · exact hrun7 x hx hlt
                      · have : x = k + 8 := by omega
                        rcases this with rfl
                        exact h8
                    rcases Nat.lt_or_ge k 250 with hklt | hkge
                    · rw [if_pos (by simp only [MAX_MATCH]; omega : k + 8 < MAX_MATCH)]
                      rw [ih (k + 8) (by omega) (by omega) (by omega)]
                      exact (firstMismatch_congr_run w ss cs 8 (k + 1) (k + 8 + 1)
                        (by omega) (by omega) (by simp only [MAX_MATCH]; omega)
                        hrun8).symm
                    · have hk250 : k = 250 := by omega
                      subst hk250
                      rw [if_neg (by simp only [MAX_MATCH]; omega : ¬ 250 + 8 < MAX_MATCH)]
                      rw [firstMismatch_eq_cap_of_run w ss cs (250 + 1)
                        (by simp only [MAX_MATCH]; omega)
                        (by
                          intro x hx hx'
                          simp only [MAX_MATCH] at hx'
                          exact hrun7 x hx (by omega))]
                      simp only [MAX_MATCH]
                  · have e : std1.mismatch8 w ss cs k = (k + 8, false) := by
                      simp [std1.mismatch8, h1, h2, h3, h4, h5, h6, h7, h8]
                    rw [e]
                    show k + 8 = firstMismatch w ss cs (k + 1)
                    rcases Nat.lt_or_ge k 250 with hklt | hkge
                    · exact (firstMismatch_eq_of_run w ss cs (k + 1) (k + 8) (by omega)
                        (by simp only [MAX_MATCH]; omega) hrun7 h8).symm
                    · have hk250 : k = 250 := by omega
                      subst hk250
                      rw [firstMismatch_eq_cap_of_run w ss cs (250 + 1)
                        (by simp only [MAX_MATCH]; omega)
                        (by
                          intro x hx hx'
                          simp only [MAX_MATCH] at hx'
                          exact hrun7 x hx (by omega))]
                      simp only [MAX_MATCH]
                · have e : std1.mismatch8 w ss cs k = (k + 7, false) := by
                    simp [std1.mismatch8, h1, h2, h3, h4, h5, h6, h7]
                  rw [e]
                  show k + 7 = firstMismatch w ss cs (k + 1)
                  refine (firstMismatch_eq_of_run w ss cs (k + 1) (k + 7) (by omega)
                    (by simp only [MAX_MATCH]; omega) ?_ h7).symm
                  intro x hx hx'
                  have : x = k + 1 ∨ x = k + 2 ∨ x = k + 3 ∨ x = k + 4 ∨
                      x = k + 5 ∨ x = k + 6 := by omega
                  rcases this with rfl | rfl | rfl | rfl | rfl | rfl <;> assumption
              · have e : std1.mismatch8 w ss cs k = (k + 6, false) := by
                  simp [std1.mismatch8, h1, h2, h3, h4, h5, h6]
                rw [e]
                show k + 6 = firstMismatch w ss cs (k + 1)
                refine (firstMismatch_eq_of_run w ss cs (k + 1) (k + 6) (by omega)
                  (by simp only [MAX_MATCH]; omega) ?_ h6).symm
                intro x hx hx'
                have : x = k + 1 ∨ x = k + 2 ∨ x = k + 3 ∨ x = k + 4 ∨
                    x = k + 5 := by omega
                rcases this with rfl | rfl | rfl | rfl | rfl <;> assumption
            · have e : std1.mismatch8 w ss cs k = (k + 5, false) := by
                simp [std1.mismatch8, h1, h2, h3, h4, h5]
              rw [e]
              show k + 5 = firstMismatch w ss cs (k + 1)
              refine (firstMismatch_eq_of_run w ss cs (k + 1) (k + 5) (by omega)
                (by simp only [MAX_MATCH]; omega) ?_ h5).symm
              intro x hx hx'
              have : x = k + 1 ∨ x = k + 2 ∨ x = k + 3 ∨ x = k + 4 := by omega
              rcases this with rfl | rfl | rfl | rfl <;> assumption
          · have e : std1.mismatch8 w ss cs k = (k + 4, false) := by
              simp [std1.mismatch8, h1, h2, h3, h4]
            rw [e]
            show k + 4 = firstMismatch w ss cs (k + 1)
            refine (firstMismatch_eq_of_run w ss cs (k + 1) (k + 4) (by omega)
              (by simp only [MAX_MATCH]; omega) ?_ h4).symm
            intro x hx hx'
            have : x = k + 1 ∨ x = k + 2 ∨ x = k + 3 := by omega
            rcases this with rfl | rfl | rfl <;> assumption
        · have e : std1.mismatch8 w ss cs k = (k + 3, false) := by
            simp [std1.mismatch8, h1, h2, h3]
          rw [e]
          show k + 3 = firstMismatch w ss cs (k + 1)
          refine (firstMismatch_eq_of_run w ss cs (k + 1) (k + 3) (by omega)
            (by simp only [MAX_MATCH]; omega) ?_ h3).symm
          intro x hx hx'
          have : x = k + 1 ∨ x = k + 2 := by omega
          rcases this with rfl | rfl <;> assumption
      · have e : std1.mismatch8 w ss cs k = (k + 2, false) := by
          simp [std1.mismatch8, h1, h2]
        rw [e]
        show k + 2 = firstMismatch w ss cs (k + 1)
        refine (firstMismatch_eq_of_run w ss cs (k + 1) (k + 2) (by omega)
          (by simp only [MAX_MATCH]; omega) ?_ h2).symm
        intro x hx hx'
        have : x = k + 1 := by omega
        rcases this with rfl
        exact h1
    · have e : std1.mismatch8 w ss cs k = (k + 1, false) := by
        simp [std1.mismatch8, h1]
      rw [e]
      show k + 1 = firstMismatch w ss cs (k + 1)
      refine (firstMismatch_eq_of_run w ss cs (k + 1) (k + 1) le_rfl
        (by simp only [MAX_MATCH]; omega) ?_ h1).symm
      intro x hx hx'
      omega

/-! ### The std2 extension (chunk scan plus fix-up) computes the reference offset -/

theorem scanChunksFix_eq_firstMismatch (w : Nat → UInt8) (ss cs : Nat) :
    ∀ n k, 250 - k ≤ 8 * n → k % 8 = 1 → k ≤ 249 →
      (if w (ss + std2.scanChunks w ss cs n k) = w (cs + std2.scanChunks w ss cs n k)
       then std2.scanChunks w ss cs n k + 1 else std2.scanChunks w ss cs n k) =
        firstMismatch w ss cs k := by
  intro n
  induction n with
  | zero =>
    intro k hn hm hk
    omega
  | succ n ih =>
    intro k hn hm hk
    by_cases a0 : w (ss + k) = w (cs + k)
    · by_cases a1 : w (ss + (k + 1)) = w (cs + (k + 1))
      · by_cases a2 : w (ss + (k + 2)) = w (cs + (k + 2))
        · by_cases a3 : w (ss + (k + 3)) = w (cs + (k + 3))
          · by_cases a4 : w (ss + (k + 4)) = w (cs + (k + 4))
            · by_cases a5 : w (ss + (k + 5)) = w (cs + (k + 5))
              · by_cases a6 : w (ss + (k + 6)) = w (cs + (k + 6))
                · by_cases a7 : w (ss + (k + 7)) = w (cs + (k + 7))
                  · -- all four chunks equal: the scan advances to k + 8
                    have hrun8 : ∀ x, k ≤ x → x < k + 8 → w (ss + x) = w (cs + x) := by
                      intro x hx hx'
                      have : x = k ∨ x = k + 1 ∨ x = k + 2 ∨ x = k + 3 ∨ x = k + 4 ∨
                          x = k + 5 ∨ x = k + 6 ∨ x = k + 7 := by omega
                      rcases this with rfl | rfl | rfl | rfl | rfl | rfl | rfl | rfl <;>
                        assumption
                    rcases Nat.lt_or_ge k 249 with hklt | hkge
                    · have c1 : ¬ (w (ss + k) ≠ w (cs + k) ∨
                          w (ss + (k + 1)) ≠ w (cs + (k + 1))) := by simp [a0, a1]
                      have c2 : ¬ (w (ss + (k + 2)) ≠ w (cs + (k + 2)) ∨
                          w (ss + (k + 3)) ≠ w (cs + (k + 3))) := by simp [a2, a3]
                      have c3 : ¬ (w (ss + (k + 4)) ≠ w (cs + (k + 4)) ∨
                          w (ss + (k + 5)) ≠ w (cs + (k + 5))) := by simp [a4, a5]
                      have c4 : ¬ (w (ss + (k + 6)) ≠ w (cs + (k + 6)) ∨
                          w (ss + (k + 7)) ≠ w (cs + (k + 7))) := by simp [a6, a7]
                      have e : std2.scanChunks w ss cs (n + 1) k =
                          std2.scanChunks w ss cs n (k + 8) := by
                        rw [std2.scanChunks, if_neg c1, if_neg c2, if_neg c3, if_neg c4,
                          if_pos (by simp only [MAX_MATCH]; omega :
                            k + 8 < MAX_MATCH - 1)]
                      rw [e]
                      rw [ih (k + 8) (by omega) (by omega) (by omega)]
                      exact (firstMismatch_congr_run w ss cs 8 k (k + 8)
                        (by omega) (by omega) (by simp only [MAX_MATCH]; omega)
                        hrun8).symm
                    · have hk249 : k = 249 := by omega
                      have c1 : ¬ (w (ss + k) ≠ w (cs + k) ∨
                          w (ss + (k + 1)) ≠ w (cs + (k + 1))) := by simp [a0, a1]
                      have c2 : ¬ (w (ss + (k + 2)) ≠ w (cs + (k + 2)) ∨
                          w (ss + (k + 3)) ≠ w (cs + (k + 3))) := by simp [a2, a3]
                      have c3 : ¬ (w (ss + (k + 4)) ≠ w (cs + (k + 4)) ∨
                          w (ss + (k + 5)) ≠ w (cs + (k + 5))) := by simp [a4, a5]
                      have c4 : ¬ (w (ss + (k + 6)) ≠ w (cs + (k + 6)) ∨
                          w (ss + (k + 7)) ≠ w (cs + (k + 7))) := by simp [a6, a7]
                      have e : std2.scanChunks w ss cs (n + 1) k = k + 8 := by
                        rw [std2.scanChunks, if_neg c1, if_neg c2, if_neg c3, if_neg c4,
                          if_neg (by simp only [MAX_MATCH]; omega :
                            ¬ k + 8 < MAX_MATCH - 1)]
                      rw [e]
                      have hcap : firstMismatch w ss cs k =
                          firstMismatch w ss cs (k + 8) :=
                        firstMismatch_congr_run w ss cs 8 k (k + 8)
                          (by omega) (by omega) (by simp only [MAX_MATCH]; omega) hrun8
                      rw [hcap]
                      by_cases a8 : w (ss + (k + 8)) = w (cs + (k + 8))
                      · rw [if_pos a8]
                        rw [firstMismatch_step_eq w ss cs (k + 8)
                          (by simp only [MAX_MATCH]; omega) a8]
                        rw [firstMismatch_out w ss cs (k + 8 + 1)
                          (by simp only [MAX_MATCH]; omega)]
                        simp only [MAX_MATCH]
                        omega
                      · rw [if_neg a8]
                        rw [firstMismatch_step_ne w ss cs (k + 8)
                          (by simp only [MAX_MATCH]; omega) a8]
                  · -- chunk at k+6 differs in its second byte
                    have e : std2.scanChunks w ss cs (n + 1) k = k + 6 := by
                      rw [std2.scanChunks]
                      simp [a0, a1, a2, a3, a4, a5, a6, a7]
                    rw [e, if_pos a6]
                    refine (firstMismatch_eq_of_run w ss cs k (k + 7) (by omega)
                      (by simp only [MAX_MATCH]; omega) ?_ a7).symm
                    intro x hx hx'
                    have : x = k ∨ x = k + 1 ∨ x = k + 2 ∨ x = k + 3 ∨ x = k + 4 ∨
                        x = k + 5 ∨ x = k + 6 := by omega
                    rcases this with rfl | rfl | rfl | rfl | rfl | rfl | rfl <;>
                      assumption
                · -- chunk at k+6 differs in its first byte
                  have e : std2.scanChunks w ss cs (n + 1) k = k + 6 := by
                    rw [std2.scanChunks]
                    simp [a0, a1, a2, a3, a4, a5, a6]
                  rw [e, if_neg a6]
                  refine (firstMismatch_eq_of_run w ss cs k (k + 6) (by omega)
                    (by simp only [MAX_MATCH]; omega) ?_ a6).symm
                  intro x hx hx'
                  have : x = k ∨ x = k + 1 ∨ x = k + 2 ∨ x = k + 3 ∨ x = k + 4 ∨
                      x = k + 5 := by omega
                  rcases this with rfl | rfl | rfl | rfl | rfl | rfl <;> assumption
              · have e : std2.scanChunks w ss cs (n + 1) k = k + 4 := by
                  rw [std2.scanChunks]
                  simp [a0, a1, a2, a3, a4, a5]
                rw [e, if_pos a4]
                refine (firstMismatch_eq_of_run w ss cs k (k + 5) (by omega)
                  (by simp only [MAX_MATCH]; omega) ?_ a5).symm
                intro x hx hx'
                have : x = k ∨ x = k + 1 ∨ x = k + 2 ∨ x = k + 3 ∨ x = k + 4 := by
                  omega
                rcases this with rfl | rfl | rfl | rfl | rfl <;> assumption
            · have e : std2.scanChunks w ss cs (n + 1) k = k + 4 := by
                rw [std2.scanChunks]
                simp [a0, a1, a2, a3, a4]
              rw [e, if_neg a4]
              refine (firstMismatch_eq_of_run w ss cs k (k + 4) (by omega)
                (by simp only [MAX_MATCH]; omega) ?_ a4).symm
              intro x hx hx'
              have : x = k ∨ x = k + 1 ∨ x = k + 2 ∨ x = k + 3 := by omega
              rcases this with rfl | rfl | rfl | rfl <;> assumption
          · have e : std2.scanChunks w ss cs (n + 1) k = k + 2 := by
              rw [std2.scanChunks]
              simp [a0, a1, a2, a3]
            rw [e, if_pos a2]
            refine (firstMismatch_eq_of_run w ss cs k (k + 3) (by omega)
              (by simp only [MAX_MATCH]; omega) ?_ a3).symm
            intro x hx hx'
            have : x = k ∨ x = k + 1 ∨ x = k + 2 := by omega
            rcases this with rfl | rfl | rfl <;> assumption
        · have e : std2.scanChunks w ss cs (n + 1) k = k + 2 := by
            rw [std2.scanChunks]
            simp [a0, a1, a2]
          rw [e, if_neg a2]
          refine (firstMismatch_eq_of_run w ss cs k (k + 2) (by omega)
            (by simp only [MAX_MATCH]; omega) ?_ a2).symm
          intro x hx hx'
          have : x = k ∨ x = k + 1 := by omega
          rcases this with rfl | rfl <;> assumption
      · have e : std2.scanChunks w ss cs (n + 1) k = k := by
          rw [std2.scanChunks]
          simp [a0, a1]
        rw [e, if_pos a0]
        refine (firstMismatch_eq_of_run w ss cs k (k + 1) (by omega)
          (by simp only [MAX_MATCH]; omega) ?_ a1).symm
        intro x hx hx'
        have : x = k := by omega
        rcases this with rfl
        exact a0
    · have e : std2.scanChunks w ss cs (n + 1) k = k := by
        rw [std2.scanChunks]
        simp [a0]
      rw [e, if_neg a0]
      exact (firstMismatch_step_ne w ss cs k (by simp only [MAX_MATCH]; omega) a0).symm

theorem extLen_eq_firstMismatch (w : Nat → UInt8) (ss cs : Nat) :
    std2.extLen w ss cs = firstMismatch w ss cs 1 := by
  have h := scanChunksFix_eq_firstMismatch w ss cs 32 1 (by omega) (by omega) (by omega)
  simpa [std2.extLen] using h


/-! ### The std3 extension (8-byte ctzl blocks, then cap) computes the reference offset -/

theorem scanBlocksCap_eq_firstMismatch (w : Nat → UInt8) (ss cs : Nat) :
    ∀ n k, 258 - k ≤ 8 * n → k % 8 = 4 → k ≤ 252 →
      min (std3.scanBlocks w ss cs n k) MAX_MATCH = firstMismatch w ss cs k := by
  intro n
  induction n with
  | zero =>
    intro k hn hm hk
    omega
  | succ n ih =>
    intro k hn hm hk
    by_cases b0 : w (ss + k) = w (cs + k)
    · by_cases b1 : w (ss + (k + 1)) = w (cs + (k + 1))
      · by_cases b2 : w (ss + (k + 2)) = w (cs + (k + 2))
        · by_cases b3 : w (ss + (k + 3)) = w (cs + (k + 3))
          · by_cases b4 : w (ss + (k + 4)) = w (cs + (k + 4))
            · by_cases b5 : w (ss + (k + 5)) = w (cs + (k + 5))
              · have hrun6 : ∀ x, k ≤ x → x < k + 6 → w (ss + x) = w (cs + x) := by
                  intro x hx hx'
                  have : x = k ∨ x = k + 1 ∨ x = k + 2 ∨ x = k + 3 ∨ x = k + 4 ∨
                      x = k + 5 := by omega
                  rcases this with rfl | rfl | rfl | rfl | rfl | rfl <;> assumption
                by_cases b6 : w (ss + (k + 6)) = w (cs + (k + 6))
                · by_cases b7 : w (ss + (k + 7)) = w (cs + (k + 7))
                  · -- whole 8-byte block equal
                    have c : std3.firstDiff8 w ss cs k = none := by
                      simp [std3.firstDiff8, b0, b1, b2, b3, b4, b5, b6, b7]
                    rcases Nat.lt_or_ge k 252 with hklt | hkge
                    · have e : std3.scanBlocks w ss cs (n + 1) k =
                          std3.scanBlocks w ss cs n (k + 8) := by
                        rw [std3.scanBlocks, c]
                        show (if k + 8 < MAX_MATCH then std3.scanBlocks w ss cs n (k + 8)
                            else k + 8) = std3.scanBlocks w ss cs n (k + 8)
                        rw [if_pos (by simp only [MAX_MATCH]; omega : k + 8 < MAX_MATCH)]
                      rw [e]
                      rw [ih (k + 8) (by omega) (by omega) (by omega)]
                      refine (firstMismatch_congr_run w ss cs 8 k (k + 8)
                        (by omega) (by omega) (by simp only [MAX_MATCH]; omega) ?_).symm
                      intro x hx hx'
                      rcases Nat.lt_or_ge x (k + 6) with h6 | h6
                      · exact hrun6 x hx h6
                      · have : x = k + 6 ∨ x = k + 7 := by omega
                        rcases this with rfl | rfl <;> assumption
                    · have hk252 : k = 252 := by omega
                      have e : std3.scanBlocks w ss cs (n + 1) k = k + 8 := by
                        rw [std3.scanBlocks, c]
                        show (if k + 8 < MAX_MATCH then std3.scanBlocks w ss cs n (k + 8)
                            else k + 8) = k + 8
                        rw [if_neg (by simp only [MAX_MATCH]; omega :
                          ¬ k + 8 < MAX_MATCH)]
                      rw [e]
                      rw [firstMismatch_eq_cap_of_run w ss cs k
                        (by simp only [MAX_MATCH]; omega)
                        (by
                          intro x hx hx'
                          simp only [MAX_MATCH] at hx'
                          exact hrun6 x hx (by omega))]
                      simp only [MAX_MATCH]
                      omega
                  · -- first difference at byte k+7
                    have c : std3.firstDiff8 w ss cs k = some 7 := by
                      simp [std3.firstDiff8, b0, b1, b2, b3, b4, b5, b6, b7]
                    have e : std3.scanBlocks w ss cs (n + 1) k = k + 7 := by
                      rw [std3.scanBlocks, c]
                    rw [e]
                    rcases Nat.lt_or_ge k 252 with hklt | hkge
                    · rw [firstMismatch_eq_of_run w ss cs k (k + 7) (by omega)
                        (by simp only [MAX_MATCH]; omega)
                        (by
                          intro x hx hx'
                          rcases Nat.lt_or_ge x (k + 6) with h6 | h6
                          · exact hrun6 x hx h6
                          · have : x = k + 6 := by omega
                            rcases this with rfl
                            exact b6)
                        b7]
                      simp only [MAX_MATCH]
                      omega
                    · have hk252 : k = 252 := by omega
                      rw [firstMismatch_eq_cap_of_run w ss cs k
                        (by simp only [MAX_MATCH]; omega)
                        (by
                          intro x hx hx'
                          simp only [MAX_MATCH] at hx'
                          exact hrun6 x hx (by omega))]
                      simp only [MAX_MATCH]
                      omega
                · -- first difference at byte k+6
                  have c : std3.firstDiff8 w ss cs k = some 6 := by
                    simp [std3.firstDiff8, b0, b1, b2, b3, b4, b5, b6]
                  have e : std3.scanBlocks w ss cs (n + 1) k = k + 6 := by
                    rw [std3.scanBlocks, c]
                  rw [e]
                  rcases Nat.lt_or_ge k 252 with hklt | hkge
                  · rw [firstMismatch_eq_of_run w ss cs k (k + 6) (by omega)
                      (by simp only [MAX_MATCH]; omega) hrun6 b6]
                    simp only [MAX_MATCH]
                    omega
                  · have hk252 : k = 252 := by omega
                    rw [firstMismatch_eq_cap_of_run w ss cs k
                      (by simp only [MAX_MATCH]; omega)
                      (by
                        intro x hx hx'
                        simp only [MAX_MATCH] at hx'
                        exact hrun6 x hx (by omega))]
                    simp only [MAX_MATCH]
                    omega
              · -- first difference at byte k+5
                have c : std3.firstDiff8 w ss cs k = some 5 := by
                  simp [std3.firstDiff8, b0, b1, b2, b3, b4, b5]
                have e : std3.scanBlocks w ss cs (n + 1) k = k + 5 := by
                  rw [std3.scanBlocks, c]
                rw [e]
                rw [firstMismatch_eq_of_run w ss cs k (k + 5) (by omega)
                  (by simp only [MAX_MATCH]; omega)
                  (by
                    intro x hx hx'
                    have : x = k ∨ x = k + 1 ∨ x = k + 2 ∨ x = k + 3 ∨ x = k + 4 := by
                      omega
                    rcases this with rfl | rfl | rfl | rfl | rfl <;> assumption)
                  b5]
                simp only [MAX_MATCH]
                omega
            · have c : std3.firstDiff8 w ss cs k = some 4 := by
                simp [std3.firstDiff8, b0, b1, b2, b3, b4]
              have e : std3.scanBlocks w ss cs (n + 1) k = k + 4 := by
                rw [std3.scanBlocks, c]
              rw [e]
              rw [firstMismatch_eq_of_run w ss cs k (k + 4) (by omega)
                (by simp only [MAX_MATCH]; omega)
                (by
                  intro x hx hx'
                  have : x = k ∨ x = k + 1 ∨ x = k + 2 ∨ x = k + 3 := by omega
                  rcases this with rfl | rfl | rfl | rfl <;> assumption)
                b4]
              simp only [MAX_MATCH]
              omega
          · have c : std3.firstDiff8 w ss cs k = some 3 := by
              simp [std3.firstDiff8, b0, b1, b2, b3]
            have e : std3.scanBlocks w ss cs (n + 1) k = k + 3 := by
              rw [std3.scanBlocks, c]
            rw [e]
            rw [firstMismatch_eq_of_run w ss cs k (k + 3) (by omega)
              (by simp only [MAX_MATCH]; omega)
              (by
                intro x hx hx'
                have : x = k ∨ x = k + 1 ∨ x = k + 2 := by omega
                rcases this with rfl | rfl | rfl <;> assumption)
              b3]
            simp only [MAX_MATCH]
            omega
        · have c : std3.firstDiff8 w ss cs k = some 2 := by
            simp [std3.firstDiff8, b0, b1, b2]
          have e : std3.scanBlocks w ss cs (n + 1) k = k + 2 := by
            rw [std3.scanBlocks, c]
          rw [e]
          rw [firstMismatch_eq_of_run w ss cs k (k + 2) (by omega)
            (by simp only [MAX_MATCH]; omega)
            (by
              intro x hx hx'
              have : x = k ∨ x = k + 1 := by omega
              rcases this with rfl | rfl <;> assumption)
            b2]
          simp only [MAX_MATCH]
          omega
      · have c : std3.firstDiff8 w ss cs k = some 1 := by
          simp [std3.firstDiff8, b0, b1]
        have e : std3.scanBlocks w ss cs (n + 1) k = k + 1 := by
          rw [std3.scanBlocks, c]
        rw [e]
        rw [firstMismatch_eq_of_run w ss cs k (k + 1) (by omega)
          (by simp only [MAX_MATCH]; omega)
          (by
            intro x hx hx'
            have : x = k := by omega
            rcases this with rfl
            exact b0)
          b1]
        simp only [MAX_MATCH]
        omega
    · have c : std3.firstDiff8 w ss cs k = some 0 := by
        simp [std3.firstDiff8, b0]
      have e : std3.scanBlocks w ss cs (n + 1) k = k + 0 := by
        rw [std3.scanBlocks, c]
      rw [e]
      rw [firstMismatch_step_ne w ss cs k (by simp only [MAX_MATCH]; omega) b0]
      simp only [MAX_MATCH]
      omega


/-! ### std1 chain-walk invariants -/

theorem option_isSome_map {α β : Type} (f : α → β) (x : Option α) :
    (Option.map f x).isSome = x.isSome := by
  cases x <;> rfl

theorem dec32_cases (cl : Nat) :
    (cl = 0 ∧ dec32 cl = 2 ^ 32 - 1) ∨ (cl ≠ 0 ∧ dec32 cl = cl - 1) := by
  by_cases hcl : cl = 0
  · exact Or.inl ⟨hcl, by rw [dec32, if_pos hcl]⟩
  · exact Or.inr ⟨hcl, by rw [dec32, if_neg hcl]⟩

theorem dec32_bound (cl fuel : Nat) (h1 : dec32 cl ≠ 0)
    (h2 : (if cl = 0 then 2 ^ 32 else cl) ≤ fuel + 1) :
    (if dec32 cl = 0 then 2 ^ 32 else dec32 cl) ≤ fuel := by
  rw [if_neg h1]
  rcases dec32_cases cl with ⟨hcl, e⟩ | ⟨hcl, e⟩
  · rw [if_pos hcl] at h2
    omega
  · rw [if_neg hcl] at h2
    omega

theorem dec32_succ_le (cl : Nat) (h : dec32 cl ≠ 0) :
    (if dec32 cl = 0 then 2 ^ 32 else dec32 cl) + 1 ≤ (if cl = 0 then 2 ^ 32 else cl) := by
  rw [if_neg h]
  rcases dec32_cases cl with ⟨hcl, e⟩ | ⟨hcl, e⟩
  · rw [if_pos hcl]
    omega
  · rw [if_neg hcl]
    omega

theorem std1_scanLoop_le (w : Nat → UInt8) (ss cs : Nat) :
    std1.scanLoop w ss cs 32 2 ≤ MAX_MATCH := by
  rw [scanLoop_eq_firstMismatch w ss cs 32 2 (by omega) (by omega) (by omega)]
  exact firstMismatch_le w ss cs MAX_MATCH 3 (by omega)

theorem std1_scanLoop_ge (w : Nat → UInt8) (ss cs : Nat) :
    2 ≤ std1.scanLoop w ss cs 32 2 := by
  rw [scanLoop_eq_firstMismatch w ss cs 32 2 (by omega) (by omega) (by omega)]
  have := firstMismatch_ge w ss cs MAX_MATCH (2 + 1) (by simp only [MAX_MATCH]; omega)
    (by simp only [MAX_MATCH]; omega)
  omega

theorem std1_loopT_isSome :
    ∀ fuel s cm cl bl se1 se ms,
      (if cl = 0 then 2 ^ 32 else cl) ≤ fuel →
      (std1.loopT s fuel cm cl bl se1 se ms).isSome := by
  intro fuel
  induction fuel with
  | zero =>
    intro s cm cl bl se1 se ms h
    exfalso
    split at h <;> omega
  | succ fuel ih =>
    intro s cm cl bl se1 se ms h
    simp only [std1.loopT]
    split_ifs with hA hB hC hD hE hF hG hH hI hJ hK
    · simp
    · rw [option_isSome_map]
      exact ih _ _ _ _ _ _ _ (dec32_bound cl fuel hD h)
    · simp
    · simp
    · simp
    · rw [option_isSome_map]
      exact ih _ _ _ _ _ _ _ (dec32_bound cl fuel hH h)
    · simp
    · simp
    · simp
    · rw [option_isSome_map]
      exact ih _ _ _ _ _ _ _ (dec32_bound cl fuel hK h)
    · simp
    · simp

theorem std1_loopT_spec :
    ∀ fuel s cm cl bl se1 se ms res,
      std1.loopT s fuel cm cl bl se1 se ms = some res →
      bl ≤ res.1 ∧ (res.2.1 = ms ∨ bl < res.1) ∧ res.1 ≤ max bl MAX_MATCH ∧
      (res.2.1 = ms ∨ res.2.1 ∈ res.2.2) ∧
      (∀ c ∈ res.2.2, c = cm ∨ limitOf s < c) ∧
      (∀ c ∈ res.2.2, c < s.strstart) ∧
      res.2.2.length ≤ (if cl = 0 then 2 ^ 32 else cl) := by
  intro fuel
  induction fuel with
  | zero =>
    intro s cm cl bl se1 se ms res h
    simp [std1.loopT] at h
  | succ fuel ih =>
    intro s cm cl bl se1 se ms res h
    have hbound : 1 ≤ (if cl = 0 then 2 ^ 32 else cl) := by
      split <;> omega
    simp only [std1.loopT] at h
    split_ifs at h with hA hB hC hD hE hF hG hH hI hJ hK
    · -- break before examining: cur_match >= strstart
      injection h with h
      subst h
      exact ⟨le_rfl, Or.inl rfl, le_max_left _ _, Or.inl rfl,
        by simp, by simp, by simp⟩
    · -- precheck failed, advance with remaining budget
      obtain ⟨r, hrec, hmap⟩ := Option.map_eq_some'.mp h
      obtain ⟨m1, m2, m3, m4, m5, m6, m7⟩ := ih _ _ _ _ _ _ _ _ hrec
      subst hmap
      refine ⟨m1, m2, m3, ?_, ?_, ?_, ?_⟩
      · rcases m4 with h' | h'
        · exact Or.inl h'
        · exact Or.inr (List.mem_cons_of_mem _ h')
      · intro c hc
        rcases List.mem_cons.mp hc with rfl | hc'
        · exact Or.inl rfl
        · rcases m5 c hc' with rfl | h'
          · exact Or.inr hC
          · exact Or.inr h'
      · intro c hc
        rcases List.mem_cons.mp hc with rfl | hc'
        · omega
        · exact m6 c hc'
      · simp only [List.length_cons]
        have := dec32_succ_le cl hD
        omega
    · -- precheck failed, budget exhausted
      injection h with h
      subst h
      refine ⟨le_rfl, Or.inl rfl, le_max_left _ _, Or.inl rfl, ?_, ?_, ?_⟩
      · intro c hc
        rcases List.mem_singleton.mp hc with rfl
        exact Or.inl rfl
      · intro c hc
        rcases List.mem_singleton.mp hc with rfl
        omega
      · simpa using hbound
    · -- precheck failed, next entry at or below limit
      injection h with h
      subst h
      refine ⟨le_rfl, Or.inl rfl, le_max_left _ _, Or.inl rfl, ?_, ?_, ?_⟩
      · intro c hc
        rcases List.mem_singleton.mp hc with rfl
        exact Or.inl rfl
      · intro c hc
        rcases List.mem_singleton.mp hc with rfl
        omega
      · simpa using hbound
    · -- improving candidate reaching nice_match: immediate break
      injection h with h
      subst h
      have hle := std1_scanLoop_le s.window s.strstart cm
      refine ⟨by omega, Or.inr (by omega), ?_, Or.inr (by simp), ?_, ?_, ?_⟩
      · exact le_trans hle (le_max_right _ _)
      · intro c hc
        rcases List.mem_singleton.mp hc with rfl
        exact Or.inl rfl
      · intro c hc
        rcases List.mem_singleton.mp hc with rfl
        omega
      · simpa using hbound
    · -- improving candidate, continue with updated best
      obtain ⟨r, hrec, hmap⟩ := Option.map_eq_some'.mp h
      obtain ⟨m1, m2, m3, m4, m5, m6, m7⟩ := ih _ _ _ _ _ _ _ _ hrec
      subst hmap
      have hle := std1_scanLoop_le s.window s.strstart cm
      refine ⟨by omega, Or.inr (by omega), ?_, ?_, ?_, ?_, ?_⟩
      · have : r.1 ≤ MAX_MATCH := by
          rw [max_eq_right hle] at m3
          exact m3
        exact le_trans this (le_max_right _ _)
      · rcases m4 with h' | h'
        · exact Or.inr (h' ▸ List.mem_cons_self _ _)
        · exact Or.inr (List.mem_cons_of_mem _ h')
      · intro c hc
        rcases List.mem_cons.mp hc with rfl | hc'
        · exact Or.inl rfl
        · rcases m5 c hc' with rfl | h'
          · exact Or.inr hG
          · exact Or.inr h'
      · intro c hc
        rcases List.mem_cons.mp hc with rfl | hc'
        · omega
        · exact m6 c hc'
      · simp only [List.length_cons]
        have := dec32_succ_le cl hH
        omega
    · -- improving candidate, budget exhausted after it
      injection h with h
      subst h
      have hle := std1_scanLoop_le s.window s.strstart cm
      refine ⟨by omega, Or.inr (by omega), ?_, Or.inr (by simp), ?_, ?_, ?_⟩
      · exact le_trans hle (le_max_right _ _)
      · intro c hc
        rcases List.mem_singleton.mp hc with rfl
        exact Or.inl rfl
      · intro c hc
        rcases List.mem_singleton.mp hc with rfl
        omega
      · simpa using hbound
    · -- improving candidate, next entry at or below limit
      injection h with h
      subst h
      have hle := std1_scanLoop_le s.window s.strstart cm
      refine ⟨by omega, Or.inr (by omega), ?_, Or.inr (by simp), ?_, ?_, ?_⟩
      · exact le_trans hle (le_max_right _ _)
      · intro c hc
        rcases List.mem_singleton.mp hc with rfl
        exact Or.inl rfl
      · intro c hc
        rcases List.mem_singleton.mp hc with rfl
        omega
      · simpa using hbound
    · -- non-improving candidate at low effort level: stop
      injection h with h
      subst h
      refine ⟨le_rfl, Or.inl rfl, le_max_left _ _, Or.inl rfl, ?_, ?_, ?_⟩
      · intro c hc
        rcases List.mem_singleton.mp hc with rfl
        exact Or.inl rfl
      · intro c hc
        rcases List.mem_singleton.mp hc with rfl
        omega
      · simpa using hbound
    · -- non-improving candidate, continue
      obtain ⟨r, hrec, hmap⟩ := Option.map_eq_some'.mp h
      obtain ⟨m1, m2, m3, m4, m5, m6, m7⟩ := ih _ _ _ _ _ _ _ _ hrec
      subst hmap
      refine ⟨m1, m2, m3, ?_, ?_, ?_, ?_⟩
      · rcases m4 with h' | h'
        · exact Or.inl h'
        · exact Or.inr (List.mem_cons_of_mem _ h')
      · intro c hc
        rcases List.mem_cons.mp hc with rfl | hc'
        · exact Or.inl rfl
        · rcases m5 c hc' with rfl | h'
          · exact Or.inr hJ
          · exact Or.inr h'
      · intro c hc
        rcases List.mem_cons.mp hc with rfl | hc'
        · omega
        · exact m6 c hc'
      · simp only [List.length_cons]
        have := dec32_succ_le cl hK
        omega
    · -- non-improving candidate, budget exhausted
      injection h with h
      subst h
      refine ⟨le_rfl, Or.inl rfl, le_max_left _ _, Or.inl rfl, ?_, ?_, ?_⟩
      · intro c hc
        rcases List.mem_singleton.mp hc with rfl
        exact Or.inl rfl
      · intro c hc
        rcases List.mem_singleton.mp hc with rfl
        omega
      · simpa using hbound
    · -- non-improving candidate, next entry at or below limit
      injection h with h
      subst h
      refine ⟨le_rfl, Or.inl rfl, le_max_left _ _, Or.inl rfl, ?_, ?_, ?_⟩
      · intro c hc
        rcases List.mem_singleton.mp hc with rfl
        exact Or.inl rfl
      · intro c hc
        rcases List.mem_singleton.mp hc with rfl
        omega
      · simpa using hbound


theorem shiftRight_two_le (n : Nat) : n >>> 2 ≤ n := by
  rw [Nat.shiftRight_eq_div_pow]
  exact Nat.div_le_self n (2 ^ 2)

theorem std1_longest_matchT_isSome (s : DState) (cm : Nat) :
    (std1.longest_matchT s cm).isSome := by
  simp only [std1.longest_matchT]
  apply std1_loopT_isSome
  have h2 : s.max_chain_length >>> 2 ≤ s.max_chain_length := shiftRight_two_le _
  split_ifs <;> omega

theorem std1_longest_match_isSome (s : DState) (cm : Nat) :
    (std1.longest_match s cm).isSome := by
  rw [std1.longest_match, option_isSome_map]
  exact std1_longest_matchT_isSome s cm

theorem std1_longest_matchT_spec (s : DState) (cm : Nat) (r : Nat × Nat × List Nat)
    (h : std1.longest_matchT s cm = some r) :
    (if s.prev_length ≠ 0 then s.prev_length else 1) ≤ r.1 ∧
    (r.2.1 = s.match_start ∨ (if s.prev_length ≠ 0 then s.prev_length else 1) < r.1) ∧
    r.1 ≤ max (if s.prev_length ≠ 0 then s.prev_length else 1) MAX_MATCH ∧
    (r.2.1 = s.match_start ∨ r.2.1 ∈ r.2.2) ∧
    (∀ c ∈ r.2.2, c = cm ∨ limitOf s < c) ∧
    (∀ c ∈ r.2.2, c < s.strstart) ∧
    r.2.2.length ≤
      (if (if (if s.prev_length ≠ 0 then s.prev_length else 1) ≥ s.good_match
            then s.max_chain_length >>> 2 else s.max_chain_length) = 0 then 2 ^ 32
        else (if (if s.prev_length ≠ 0 then s.prev_length else 1) ≥ s.good_match
            then s.max_chain_length >>> 2 else s.max_chain_length)) := by
  simp only [std1.longest_matchT] at h
  exact std1_loopT_spec _ _ _ _ _ _ _ _ _ h

theorem std1_loopT_nice_stop (s : DState) (fuel cm cl bl : Nat)
    (se1 se : UInt8) (ms len : Nat)
    (hlen : len = std1.scanLoop s.window s.strstart cm 32 2)
    (hcm : cm < s.strstart)
    (hp1 : s.window (cm + bl) = se)
    (hp2 : s.window (cm + bl - 1) = se1)
    (hp3 : s.window cm = s.window s.strstart)
    (hp4 : s.window (cm + 1) = s.window (s.strstart + 1))
    (himp : len > bl)
    (hnice : len ≥ min s.nice_match s.lookahead) :
    std1.loopT s (fuel + 1) cm cl bl se1 se ms = some (len, cm, [cm]) := by
  rw [show fuel + 1 = Nat.succ fuel from rfl, std1.loopT]
  rw [if_neg (by omega : ¬ cm ≥ s.strstart)]
  rw [if_neg (by
    push_neg
    exact ⟨hp1, hp2, hp3, hp4⟩)]
  rw [← hlen]
  rw [if_pos himp, if_pos hnice]

theorem std1_loopT_trigger_stop (s : DState) (fuel cm cl bl : Nat)
    (se1 se : UInt8) (ms len : Nat)
    (hlen : len = std1.scanLoop s.window s.strstart cm 32 2)
    (hcm : cm < s.strstart)
    (hp1 : s.window (cm + bl) = se)
    (hp2 : s.window (cm + bl - 1) = se1)
    (hp3 : s.window cm = s.window s.strstart)
    (hp4 : s.window (cm + 1) = s.window (s.strstart + 1))
    (himp : ¬ len > bl)
    (htrig : s.level < s.trigger_level) :
    std1.loopT s (fuel + 1) cm cl bl se1 se ms = some (bl, ms, [cm]) := by
  rw [show fuel + 1 = Nat.succ fuel from rfl, std1.loopT]
  rw [if_neg (by omega : ¬ cm ≥ s.strstart)]
  rw [if_neg (by
    push_neg
    exact ⟨hp1, hp2, hp3, hp4⟩)]
  rw [← hlen]
  rw [if_neg himp, if_pos htrig]

/-! ### Claim theorems -/

/-- C2 (amended): the value returned by std1 `longest_match` is always at most
`s->lookahead` (unconditionally — this is the source header's OUT assertion),
and it is at most `MAX_MATCH` (258) provided the caller's `prev_length` is
itself at most `MAX_MATCH`; the slack bytes the comparator may have matched
never raise it past either bound. -/
theorem claim_C2 (s : DState) (cm len ms : Nat)
    (h : std1.longest_match s cm = some (len, ms)) :
    len ≤ s.lookahead ∧ (s.prev_length ≤ MAX_MATCH → len ≤ MAX_MATCH) := by
  simp only [std1.longest_match] at h
  obtain ⟨r, hT, hf⟩ := Option.map_eq_some'.mp h
  obtain ⟨h1, h2⟩ := Prod.mk.injEq .. ▸ hf
  obtain ⟨m1, m2, m3, m4, m5, m6, m7⟩ := std1_longest_matchT_spec s cm r hT
  subst h1
  constructor
  · split_ifs with hla
    · exact hla
    · exact le_rfl
  · intro hprev
    have hbl : (if s.prev_length ≠ 0 then s.prev_length else 1) ≤ MAX_MATCH := by
      split_ifs
      · exact hprev
      · simp only [MAX_MATCH]; omega
    have h258 : r.1 ≤ MAX_MATCH := m3.trans (le_of_eq (max_eq_right hbl))
    split_ifs with hla
    · exact h258
    · omega

/-- C2 counterexample: with `prev_length = 300` (all stated preconditions
hold: `prev_length ≥ 1`, head distance within `MAX_DIST`) the call returns
300 > MAX_MATCH, so the claim's unconditional `≤ 258` bound is false. -/
theorem claim_C2_cex :
    std1.longest_match S2 99 = some (300, 999) ∧ S2.prev_length = 300 ∧
    1 ≤ S2.prev_length ∧ S2.strstart - 99 ≤ S2.max_dist ∧
    ¬ (300 ≤ MAX_MATCH) := by decide

/-- C2 witness. -/
theorem claim_C2_witness : 6 ≤ S4.lookahead ∧ 6 ≤ MAX_MATCH :=
  ⟨(claim_C2 S4 20 6 20 (by decide)).1,
    (claim_C2 S4 20 6 20 (by decide)).2 (by decide)⟩

/-- C3 (amended): the value returned by std1 `longest_match` is at least
`s->prev_length` provided `prev_length ≤ lookahead`; the final clamp against
`lookahead` is what can otherwise lower it. -/
theorem claim_C3 (s : DState) (cm len ms : Nat)
    (hla : s.prev_length ≤ s.lookahead)
    (h : std1.longest_match s cm = some (len, ms)) :
    s.prev_length ≤ len := by
  simp only [std1.longest_match] at h
  obtain ⟨r, hT, hf⟩ := Option.map_eq_some'.mp h
  obtain ⟨h1, h2⟩ := Prod.mk.injEq .. ▸ hf
  obtain ⟨m1, m2, m3, m4, m5, m6, m7⟩ := std1_longest_matchT_spec s cm r hT
  have hbl : s.prev_length ≤ (if s.prev_length ≠ 0 then s.prev_length else 1) := by
    split_ifs <;> omega
  subst h1
  split_ifs with hla'
  · omega
  · exact hla

/-- C3 counterexample: with `prev_length = 5 > lookahead = 3` (stated
preconditions hold) the call returns 3 < 5, so the unconditional
"never shorter than `prev_length`" reading is false. -/
theorem claim_C3_cex :
    std1.longest_match S3 99 = some (3, 999) ∧ S3.prev_length = 5 ∧
    1 ≤ S3.prev_length ∧ ¬ (5 ≤ 3) := by decide

/-- C3 witness. -/
theorem claim_C3_witness : S4.prev_length ≤ 6 :=
  claim_C3 S4 20 6 20 (by decide) (by decide)

/-- C4: `best_len`/`match_start` are updated only on a strictly greater
length (`len > best_len`): whenever the recorded `match_start` differs from
the pre-call one, the final pre-clamp length strictly exceeds the initial
`best_len`; and in the concrete two-candidate chain `S4` (both candidates
yield length 6) the candidate encountered first in chain order (position 20,
the nearest) is recorded, and the later equal-length one (position 10),
though examined, never overwrites it. -/
theorem claim_C4 :
    (∀ s cm r, std1.longest_matchT s cm = some r →
      r.2.1 = s.match_start ∨ (if s.prev_length ≠ 0 then s.prev_length else 1) < r.1) ∧
    std1.longest_matchT S4 20 = some (6, 20, [20, 10]) := by
  constructor
  · intro s cm r h
    exact (std1_longest_matchT_spec s cm r h).2.1
  · decide

/-- C4 witness. -/
theorem claim_C4_witness :
    20 = S4.match_start ∨ (if S4.prev_length ≠ 0 then S4.prev_length else 1) < 6 :=
  claim_C4.1 S4 20 (6, 20, [20, 10]) (by decide)

/-- C5: the effective early-accept threshold is `min s->nice_match
s->lookahead`, and whenever a candidate's fully extended length reaches it
(and improves on `best_len`), the walk stops at that candidate immediately:
the result is that candidate's `(len, position)` and the trace shows no later
chain entry was examined. -/
theorem claim_C5 (s : DState) (fuel cm cl bl : Nat) (se1 se : UInt8) (ms len : Nat)
    (hlen : len = std1.scanLoop s.window s.strstart cm 32 2)
    (hcm : cm < s.strstart)
    (hp1 : s.window (cm + bl) = se)
    (hp2 : s.window (cm + bl - 1) = se1)
    (hp3 : s.window cm = s.window s.strstart)
    (hp4 : s.window (cm + 1) = s.window (s.strstart + 1))
    (himp : len > bl)
    (hnice : len ≥ min s.nice_match s.lookahead) :
    std1.loopT s (fuel + 1) cm cl bl se1 se ms = some (len, cm, [cm]) :=
  std1_loopT_nice_stop s fuel cm cl bl se1 se ms len hlen hcm hp1 hp2 hp3 hp4 himp hnice

/-- C5 witness: in `S5` the head candidate (30) reaches
`min nice_match lookahead = 4` and the search stops there, although the later
chain entry (20) would have matched 10 bytes. -/
theorem claim_C5_witness :
    std1.loopT S5 8 30 16 2 (S5.window 41) (S5.window 42) 999 = some (4, 30, [30]) ∧
    std1.longest_matchT S5 30 = some (4, 30, [30]) ∧
    S5.prev (30 &&& S5.w_mask) = 20 ∧
    std1.scanLoop S5.window 40 20 32 2 = 10 :=
  ⟨claim_C5 S5 7 30 16 2 (S5.window 41) (S5.window 42) 999 4
      (by decide) (by decide) (by decide) (by decide) (by decide) (by decide)
      (by decide) (by decide),
    by decide, by decide, by decide⟩

/-- C6 (amended): every chain entry the std1 walk examines is either the head
candidate or lies strictly above `limit = strstart − MAX_DIST`; in
particular an entry at distance `MAX_DIST + 1` or more is never examined.
(A non-head entry at distance exactly `MAX_DIST` sits at `limit` itself and
is likewise not examined — the walk stops there; see the counterexample.) -/
theorem claim_C6 (s : DState) (cm : Nat) (r : Nat × Nat × List Nat)
    (h : std1.longest_matchT s cm = some r) :
    ∀ c ∈ r.2.2, c = cm ∨ limitOf s < c :=
  fun c hc => (std1_longest_matchT_spec s cm r h).2.2.2.2.1 c hc

/-- C6 counterexample: in `S6` the chain contains an entry at distance
exactly `MAX_DIST` (position 904 = 5000 − 4096 = `limit`) holding a perfect
match (the comparator would return 258), yet the walk stops without examining
it (the trace holds only the head 4999) — contradicting the claim that an
entry at distance exactly `MAX_DIST` is eligible. -/
theorem claim_C6_cex :
    std1.longest_matchT S6 4999 = some (2, 999, [4999]) ∧
    S6.prev (4999 &&& S6.w_mask) = S6.strstart - S6.max_dist ∧
    limitOf S6 = S6.strstart - S6.max_dist ∧
    std1.scanLoop S6.window S6.strstart (S6.strstart - S6.max_dist) 32 2 = 258 := by
  decide

/-- C6 witness. -/
theorem claim_C6_witness : (10 : Nat) = 20 ∨ limitOf S4 < 10 :=
  claim_C6 S4 20 (6, 20, [20, 10]) (by decide) 10 (by decide)

/-- C7 (amended, std1): at an effort level below `TRIGGER_LEVEL`, as soon as
one examined candidate passes the cheap probe and its full extension fails to
improve on `best_len`, the std1 walk stops entirely: the result is the
current `(best_len, match_start)` and the trace ends at that candidate.
(The std3 variant has no such cutoff; see the counterexample.) -/
theorem claim_C7 (s : DState) (fuel cm cl bl : Nat) (se1 se : UInt8) (ms len : Nat)
    (hlen : len = std1.scanLoop s.window s.strstart cm 32 2)
    (hcm : cm < s.strstart)
    (hp1 : s.window (cm + bl) = se)
    (hp2 : s.window (cm + bl - 1) = se1)
    (hp3 : s.window cm = s.window s.strstart)
    (hp4 : s.window (cm + 1) = s.window (s.strstart + 1))
    (himp : ¬ len > bl)
    (htrig : s.level < s.trigger_level) :
    std1.loopT s (fuel + 1) cm cl bl se1 se ms = some (bl, ms, [cm]) :=
  std1_loopT_trigger_stop s fuel cm cl bl se1 se ms len hlen hcm hp1 hp2 hp3 hp4
    himp htrig

/-- C7 counterexample: in `S7` (`level = 1 < trigger_level`), the std3
variant fully extends the head candidate 40 to length 4 ≤ best_len = 10 and
then — having no low-level cutoff — still examines the next chain entry 20,
contradicting the claim for the std3 variant its sources cite. -/
theorem claim_C7_cex :
    S7.level < S7.trigger_level ∧
    std3.longest_matchT S7 40 = some (10, 999, [40, 20]) ∧
    min (std3.scanBlocks S7.window S7.strstart 40 32 4) MAX_MATCH ≤ 10 := by
  decide

/-- C7 witness: std1 on the same state stops at the non-improving candidate. -/
theorem claim_C7_witness :
    std1.loopT S7 8 40 16 10 (S7.window 69) (S7.window 70) 999 =
      some (10, 999, [40]) ∧
    std1.longest_matchT S7 40 = some (10, 999, [40]) :=
  ⟨claim_C7 S7 7 40 16 10 (S7.window 69) (S7.window 70) 999 4
      (by decide) (by decide) (by decide) (by decide) (by decide) (by decide)
      (by decide) (by decide),
    by decide⟩

/-- C8: a std1 `longest_match` call mutates nothing but `s->match_start`
(every other `deflate_state` field of the post-state equals the pre-state's),
the final `match_start` is the second returned component, it differs from the
pre-call value only when some candidate strictly improved on the initial
`best_len`, and when no candidate improved the returned length is the initial
`best_len` clamped to `lookahead` and `match_start` retains its pre-call
value. -/
theorem claim_C8 (s : DState) (cm len : Nat) (s' : DState)
    (h : std1.longest_matchS s cm = some (len, s')) :
    s'.window = s.window ∧ s'.prev = s.prev ∧ s'.w_mask = s.w_mask ∧
    s'.strstart = s.strstart ∧ s'.prev_length = s.prev_length ∧
    s'.lookahead = s.lookahead ∧ s'.max_chain_length = s.max_chain_length ∧
    s'.nice_match = s.nice_match ∧ s'.good_match = s.good_match ∧
    s'.level = s.level ∧ s'.max_dist = s.max_dist ∧
    s'.trigger_level = s.trigger_level ∧
    ∀ r, std1.longest_matchT s cm = some r →
      s'.match_start = r.2.1 ∧
      (s'.match_start = s.match_start ∨
        (if s.prev_length ≠ 0 then s.prev_length else 1) < r.1) ∧
      (r.1 = (if s.prev_length ≠ 0 then s.prev_length else 1) →
        s'.match_start = s.match_start ∧
        len = if (if s.prev_length ≠ 0 then s.prev_length else 1) ≤ s.lookahead
          then (if s.prev_length ≠ 0 then s.prev_length else 1) else s.lookahead) := by
  simp only [std1.longest_matchS] at h
  obtain ⟨p, hp, hf⟩ := Option.map_eq_some'.mp h
  obtain ⟨h1, h2⟩ := Prod.mk.injEq .. ▸ hf
  subst h2
  refine ⟨rfl, rfl, rfl, rfl, rfl, rfl, rfl, rfl, rfl, rfl, rfl, rfl, ?_⟩
  intro r hr
  simp only [std1.longest_match, hr, Option.map_some'] at hp
  have hp' := Option.some.inj hp
  subst hp'
  obtain ⟨m1, m2, m3, m4, m5, m6, m7⟩ := std1_longest_matchT_spec s cm r hr
  refine ⟨rfl, m2, ?_⟩
  intro hbl
  have hms : r.2.1 = s.match_start := by
    rcases m2 with h' | h'
    · exact h'
    · omega
  refine ⟨hms, ?_⟩
  rw [← h1, hbl]

/-- C8 witness. -/
theorem claim_C8_witness :
    ({ S2 with match_start := 999 } : DState).window = S2.window :=
  (claim_C8 S2 99 300 { S2 with match_start := 999 } rfl).1

/-- C9 (amended): every std1 `longest_match` call terminates; the walk
examines at most `max_chain_length` candidates (quartered to
`max_chain_length >>> 2` when the initial `best_len ≥ good_match`) whenever
that budget is nonzero, and at most `2 ^ 32` when the budget is zero (the
unsigned `--chain_length` wraps); and each candidate's extension compares at
most `MAX_MATCH` byte offsets. -/
theorem claim_C9 :
    (∀ s cm, (std1.longest_match s cm).isSome) ∧
    (∀ s cm r, std1.longest_matchT s cm = some r →
      r.2.2.length ≤
        (if (if (if s.prev_length ≠ 0 then s.prev_length else 1) ≥ s.good_match
              then s.max_chain_length >>> 2 else s.max_chain_length) = 0 then 2 ^ 32
          else (if (if s.prev_length ≠ 0 then s.prev_length else 1) ≥ s.good_match
              then s.max_chain_length >>> 2 else s.max_chain_length))) ∧
    (∀ w ss cs, std1.scanLoop w ss cs 32 2 ≤ MAX_MATCH) :=
  ⟨std1_longest_match_isSome,
    fun s cm r h => (std1_longest_matchT_spec s cm r h).2.2.2.2.2.2,
    std1_scanLoop_le⟩

/-- C9 counterexample: in `S9` the quartered budget is
`max_chain_length >>> 2 = 0`, the decrement wraps, and 3 candidates are
examined although `max_chain_length = 2` (and its quarter is 0) — more than
the claimed bound. -/
theorem claim_C9_cex :
    std1.longest_matchT S9 90 = some (2, 999, [90, 80, 70]) ∧
    (if (if S9.prev_length ≠ 0 then S9.prev_length else 1) ≥ S9.good_match
      then S9.max_chain_length >>> 2 else S9.max_chain_length) = 0 ∧
    ¬ ((3 : Nat) ≤ S9.max_chain_length >>> 2) ∧
    ¬ ((3 : Nat) ≤ S9.max_chain_length) := by decide

/-- C9 witness. -/
theorem claim_C9_witness :
    ([20, 10] : List Nat).length ≤
      (if (if (if S4.prev_length ≠ 0 then S4.prev_length else 1) ≥ S4.good_match
            then S4.max_chain_length >>> 2 else S4.max_chain_length) = 0 then 2 ^ 32
        else (if (if S4.prev_length ≠ 0 then S4.prev_length else 1) ≥ S4.good_match
            then S4.max_chain_length >>> 2 else S4.max_chain_length)) :=
  claim_C9.2.1 S4 20 (6, 20, [20, 10]) (by decide)

/-- C10: whenever std1 `longest_match` writes `s->match_start` (the final
value differs from the pre-call one), the written position is strictly below
`strstart` (distance at least 1), and — given the precondition that the chain
head is within `MAX_DIST`, i.e. at or above `limit` — the written position is
at least `limit = strstart − MAX_DIST`, so the reported distance never
exceeds `MAX_DIST`. -/
theorem claim_C10 (s : DState) (cm : Nat) (r : Nat × Nat × List Nat)
    (h : std1.longest_matchT s cm = some r)
    (hhead : limitOf s ≤ cm)
    (hwrite : r.2.1 ≠ s.match_start) :
    r.2.1 < s.strstart ∧ limitOf s ≤ r.2.1 := by
  obtain ⟨m1, m2, m3, m4, m5, m6, m7⟩ := std1_longest_matchT_spec s cm r h
  rcases m4 with h' | hmem
  · exact absurd h' hwrite
  · refine ⟨m6 _ hmem, ?_⟩
    rcases m5 _ hmem with rfl | h'
    · exact hhead
    · omega

/-- C10 witness. -/
theorem claim_C10_witness : (10 : Nat) < S1.strstart ∧ limitOf S1 ≤ 10 :=
  claim_C10 S1 10 (8, 10, [10]) (by decide) (by decide) (by decide)


/-! ### Lockstep equivalence of the std1 and std2 variants -/
theorem chunk_ne_iff (w : Nat → UInt8) (a b : Nat) :
    (std2.chunk w a ≠ std2.chunk w b) ↔ (w a ≠ w b ∨ w (a + 1) ≠ w (b + 1)) := by
  simp only [std2.chunk, ne_eq, Prod.mk.injEq, not_and_or]

theorem std1_std2_lockstep (s : DState)
    (HH : ∀ p, s.window p = s.window s.strstart →
      s.window (p + 1) = s.window (s.strstart + 1) →
      s.window (p + 2) = s.window (s.strstart + 2)) :
    ∀ fuel cm cl bl ms, 1 ≤ bl →
      std2.loop s fuel cm cl bl (std2.chunk s.window s.strstart)
        (std2.chunk s.window (s.strstart + bl - 1)) ms =
      (std1.loopT s fuel cm cl bl (s.window (s.strstart + bl - 1))
        (s.window (s.strstart + bl)) ms).map (fun r => (r.1, r.2.1)) := by
  intro fuel
  induction fuel with
  | zero =>
    intro cm cl bl ms hbl
    rfl
  | succ fuel ih =>
    intro cm cl bl ms hbl
    by_cases hcm : cm ≥ s.strstart
    · rw [std1.loopT, std2.loop, if_pos hcm, if_pos hcm, Option.map_some']
    · -- the precheck conditions of the two variants test the same four bytes
      have e1 : cm + bl - 1 + 1 = cm + bl := by omega
      have e2 : s.strstart + bl - 1 + 1 = s.strstart + bl := by omega
      by_cases hq : s.window (cm + bl) ≠ s.window (s.strstart + bl) ∨
          s.window (cm + bl - 1) ≠ s.window (s.strstart + bl - 1) ∨
          s.window cm ≠ s.window s.strstart ∨
          s.window (cm + 1) ≠ s.window (s.strstart + 1)
      · -- cheap rejection: both skip to the next chain entry
        have hq2 : std2.chunk s.window (cm + bl - 1) ≠
            std2.chunk s.window (s.strstart + bl - 1) ∨
            std2.chunk s.window cm ≠ std2.chunk s.window s.strstart := by
          rw [chunk_ne_iff, chunk_ne_iff, e1, e2]
          tauto
        rw [std1.loopT, std2.loop, if_neg hcm, if_neg hcm, if_pos hq, if_pos hq2]
        by_cases hn2 : dec32 cl ≠ 0
        · by_cases hn1 : s.prev (cm &&& s.w_mask) > limitOf s
          · rw [if_pos hn1, if_pos hn2, if_pos hn2, if_pos hn1]
            rw [ih (s.prev (cm &&& s.w_mask)) (dec32 cl) bl ms hbl]
            cases std1.loopT s fuel (s.prev (cm &&& s.w_mask)) (dec32 cl) bl
              (s.window (s.strstart + bl - 1)) (s.window (s.strstart + bl)) ms <;>
              rfl
          · rw [if_neg hn1, if_pos hn2, if_neg hn1, Option.map_some']
        · by_cases hn1 : s.prev (cm &&& s.w_mask) > limitOf s
          · rw [if_pos hn1, if_neg hn2, if_neg hn2, Option.map_some']
          · rw [if_neg hn1, if_neg hn2, Option.map_some']
      · -- both pass the probe: the four bytes agree, and the extension
        -- lengths coincide (the std1 scan skips byte 2, covered by `HH`)
        push_neg at hq
        obtain ⟨hA, hB, hC, hD⟩ := hq
        have hq2 : ¬ (std2.chunk s.window (cm + bl - 1) ≠
            std2.chunk s.window (s.strstart + bl - 1) ∨
            std2.chunk s.window cm ≠ std2.chunk s.window s.strstart) := by
          rw [chunk_ne_iff, chunk_ne_iff, e1, e2]
          push_neg
          exact ⟨⟨hB, hA⟩, hC, hD⟩
        have h2 : s.window (cm + 2) = s.window (s.strstart + 2) := HH cm hC hD
        have hlen : std2.extLen s.window s.strstart cm =
            std1.scanLoop s.window s.strstart cm 32 2 := by
          rw [extLen_eq_firstMismatch,
            scanLoop_eq_firstMismatch s.window s.strstart cm 32 2 (by omega)
              (by omega) (by omega)]
          rw [firstMismatch_step_eq s.window s.strstart cm 1
            (by simp only [MAX_MATCH]; omega) hD.symm]
          rw [firstMismatch_step_eq s.window s.strstart cm 2
            (by simp only [MAX_MATCH]; omega) h2.symm]
        rw [std1.loopT, std2.loop, if_neg hcm, if_neg hcm,
          if_neg (by
            push_neg
            exact ⟨hA, hB, hC, hD⟩ : ¬ (s.window (cm + bl) ≠ s.window (s.strstart + bl) ∨
              s.window (cm + bl - 1) ≠ s.window (s.strstart + bl - 1) ∨
              s.window cm ≠ s.window s.strstart ∨
              s.window (cm + 1) ≠ s.window (s.strstart + 1))),
          if_neg hq2, hlen]
        by_cases himp : std1.scanLoop s.window s.strstart cm 32 2 > bl
        · by_cases hnice : std1.scanLoop s.window s.strstart cm 32 2 ≥
              min s.nice_match s.lookahead
          · rw [if_pos himp, if_pos himp, if_pos hnice, if_pos hnice, Option.map_some']
          · rw [if_pos himp, if_pos himp, if_neg hnice, if_neg hnice]
            have hbl' : 1 ≤ std1.scanLoop s.window s.strstart cm 32 2 := by omega
            by_cases hn2 : dec32 cl ≠ 0
            · by_cases hn1 : s.prev (cm &&& s.w_mask) > limitOf s
              · rw [if_pos hn1, if_pos hn2, if_pos hn2, if_pos hn1]
                rw [ih (s.prev (cm &&& s.w_mask)) (dec32 cl)
                  (std1.scanLoop s.window s.strstart cm 32 2) cm hbl']
                cases std1.loopT s fuel (s.prev (cm &&& s.w_mask)) (dec32 cl)
                  (std1.scanLoop s.window s.strstart cm 32 2)
                  (s.window (s.strstart + std1.scanLoop s.window s.strstart cm 32 2 - 1))
                  (s.window (s.strstart + std1.scanLoop s.window s.strstart cm 32 2))
                  cm <;> rfl
              · rw [if_neg hn1, if_pos hn2, if_neg hn1, Option.map_some']
            · by_cases hn1 : s.prev (cm &&& s.w_mask) > limitOf s
              · rw [if_pos hn1, if_neg hn2, if_neg hn2, Option.map_some']
              · rw [if_neg hn1, if_neg hn2, Option.map_some']
        · rw [if_neg himp, if_neg himp]
          by_cases htrig : s.level < s.trigger_level
          · rw [if_pos htrig, if_pos htrig, Option.map_some']
          · rw [if_neg htrig, if_neg htrig]
            by_cases hn2 : dec32 cl ≠ 0
            · by_cases hn1 : s.prev (cm &&& s.w_mask) > limitOf s
              · rw [if_pos hn1, if_pos hn2, if_pos hn2, if_pos hn1]
                rw [ih (s.prev (cm &&& s.w_mask)) (dec32 cl) bl ms hbl]
                cases std1.loopT s fuel (s.prev (cm &&& s.w_mask)) (dec32 cl) bl
                  (s.window (s.strstart + bl - 1)) (s.window (s.strstart + bl)) ms <;>
                  rfl
              · rw [if_neg hn1, if_pos hn2, if_neg hn1, Option.map_some']
            · by_cases hn1 : s.prev (cm &&& s.w_mask) > limitOf s
              · rw [if_pos hn1, if_neg hn2, if_neg hn2, Option.map_some']
              · rw [if_neg hn1, if_neg hn2, Option.map_some']

/-! ### Lockstep equivalence of the std1 and std3 variants -/

theorem word4_ne_iff (w : Nat → UInt8) (a b : Nat) :
    (std3.word4 w a ≠ std3.word4 w b) ↔
    (w a ≠ w b ∨ w (a + 1) ≠ w (b + 1) ∨ w (a + 2) ≠ w (b + 2) ∨
      w (a + 3) ≠ w (b + 3)) := by
  simp only [std3.word4, ne_eq, Prod.mk.injEq, not_and_or]

theorem std1_scanLoop_ge3 (w : Nat → UInt8) (ss cs : Nat) :
    3 ≤ std1.scanLoop w ss cs 32 2 := by
  rw [scanLoop_eq_firstMismatch w ss cs 32 2 (by omega) (by omega) (by omega)]
  have := firstMismatch_ge w ss cs MAX_MATCH (2 + 1) (by simp only [MAX_MATCH]; omega)
    (by simp only [MAX_MATCH]; omega)
  omega

theorem std1_std3_lockstep (s : DState)
    (HH : ∀ p, s.window p = s.window s.strstart →
      s.window (p + 1) = s.window (s.strstart + 1) →
      s.window (p + 2) = s.window (s.strstart + 2))
    (htrig : ¬ s.level < s.trigger_level)
    (hprev : ∀ i, s.prev i < s.strstart) :
    ∀ fuel cm cl bl ms, 3 ≤ bl → cm < s.strstart →
      std3.loopT s fuel cm cl bl (std3.word4 s.window (s.strstart + bl - 3)) ms =
      std1.loopT s fuel cm cl bl (s.window (s.strstart + bl - 1))
        (s.window (s.strstart + bl)) ms := by
  intro fuel
  induction fuel with
  | zero =>
    intro cm cl bl ms hbl hcm
    rfl
  | succ fuel ih =>
    intro cm cl bl ms hbl hcm
    have ec1 : cm + bl - 3 + 1 = cm + bl - 2 := by omega
    have ec2 : cm + bl - 3 + 2 = cm + bl - 1 := by omega
    have ec3 : cm + bl - 3 + 3 = cm + bl := by omega
    have es1 : s.strstart + bl - 3 + 1 = s.strstart + bl - 2 := by omega
    have es2 : s.strstart + bl - 3 + 2 = s.strstart + bl - 1 := by omega
    have es3 : s.strstart + bl - 3 + 3 = s.strstart + bl := by omega
    by_cases hq : s.window (cm + bl) ≠ s.window (s.strstart + bl) ∨
        s.window (cm + bl - 1) ≠ s.window (s.strstart + bl - 1) ∨
        s.window cm ≠ s.window s.strstart ∨
        s.window (cm + 1) ≠ s.window (s.strstart + 1)
    · -- the std1 probe rejects; then the (stricter) std3 probe rejects too
      have hq3 : std3.word4 s.window (cm + bl - 3) ≠
          std3.word4 s.window (s.strstart + bl - 3) ∨
          std3.word4 s.window cm ≠ std3.word4 s.window s.strstart := by
        rw [word4_ne_iff, word4_ne_iff, ec1, ec2, ec3, es1, es2, es3]
        tauto
      rw [std1.loopT, std3.loopT, if_neg (show ¬ cm ≥ s.strstart from by omega), if_pos hq, if_pos hq3]
      by_cases hn : s.prev (cm &&& s.w_mask) > limitOf s ∧ dec32 cl ≠ 0
      · obtain ⟨hn1, hn2⟩ := hn
        rw [if_pos ⟨hn1, hn2⟩, if_pos hn1, if_pos hn2]
        rw [ih (s.prev (cm &&& s.w_mask)) (dec32 cl) bl ms hbl
          (hprev (cm &&& s.w_mask))]
      · rw [if_neg hn]
        rcases not_and_or.mp hn with hn1 | hn2
        · rw [if_neg hn1]
        · by_cases hn1 : s.prev (cm &&& s.w_mask) > limitOf s
          · rw [if_pos hn1, if_neg hn2]
          · rw [if_neg hn1]
    · push_neg at hq
      obtain ⟨hA, hB, hC, hD⟩ := hq
      have h2 : s.window (cm + 2) = s.window (s.strstart + 2) := HH cm hC hD
      by_cases hq3 : std3.word4 s.window (cm + bl - 3) ≠
          std3.word4 s.window (s.strstart + bl - 3) ∨
          std3.word4 s.window cm ≠ std3.word4 s.window s.strstart
      · -- std1 passes but std3 rejects: the candidate cannot improve, so
        -- std1 merely walks on (level ≥ TRIGGER_LEVEL) and the states agree
        have hq3' := hq3
        rw [word4_ne_iff, word4_ne_iff, ec1, ec2, ec3, es1, es2, es3] at hq3'
        have hlen_le : std1.scanLoop s.window s.strstart cm 32 2 ≤ bl := by
          rw [scanLoop_eq_firstMismatch s.window s.strstart cm 32 2 (by omega)
            (by omega) (by omega)]
          have hcap := firstMismatch_le s.window s.strstart cm MAX_MATCH (2 + 1)
            (by simp only [MAX_MATCH]; omega)
          rcases hq3' with (h3 | h3 | h3 | h3) | (h3 | h3 | h3 | h3)
          · -- byte bl-3 differs
            rcases Nat.lt_or_ge bl 6 with hsm | hlg
            · exfalso
              have : bl = 3 ∨ bl = 4 ∨ bl = 5 := by omega
              rcases this with rfl | rfl | rfl
              · rw [show cm + 3 - 3 = cm from by omega,
                  show s.strstart + 3 - 3 = s.strstart from by omega] at h3
                exact h3 hC
              · rw [show cm + 4 - 3 = cm + 1 from by omega,
                  show s.strstart + 4 - 3 = s.strstart + 1 from by omega] at h3
                exact h3 hD
              · rw [show cm + 5 - 3 = cm + 2 from by omega,
                  show s.strstart + 5 - 3 = s.strstart + 2 from by omega] at h3
                exact h3 h2
            · rw [show cm + bl - 3 = cm + (bl - 3) from by omega,
                show s.strstart + bl - 3 = s.strstart + (bl - 3) from by omega] at h3
              rcases Nat.lt_or_ge (bl - 3) MAX_MATCH with hj | hj
              · have := firstMismatch_le_of_ne s.window s.strstart cm MAX_MATCH
                  (2 + 1) (bl - 3) (by simp only [MAX_MATCH]; omega) (by omega) hj
                  (fun he => h3 he.symm)
                omega
              · simp only [MAX_MATCH] at hcap hj
                omega
          · -- byte bl-2 differs
            rcases Nat.lt_or_ge bl 5 with hsm | hlg
            · exfalso
              have : bl = 3 ∨ bl = 4 := by omega
              rcases this with rfl | rfl
              · rw [show cm + 3 - 2 = cm + 1 from by omega,
                  show s.strstart + 3 - 2 = s.strstart + 1 from by omega] at h3
                exact h3 hD
              · rw [show cm + 4 - 2 = cm + 2 from by omega,
                  show s.strstart + 4 - 2 = s.strstart + 2 from by omega] at h3
                exact h3 h2
            · rw [show cm + bl - 2 = cm + (bl - 2) from by omega,
                show s.strstart + bl - 2 = s.strstart + (bl - 2) from by omega] at h3
              rcases Nat.lt_or_ge (bl - 2) MAX_MATCH with hj | hj
              · have := firstMismatch_le_of_ne s.window s.strstart cm MAX_MATCH
                  (2 + 1) (bl - 2) (by simp only [MAX_MATCH]; omega) (by omega) hj
                  (fun he => h3 he.symm)
                omega
              · simp only [MAX_MATCH] at hcap hj
                omega
          · exact absurd hB h3
          · exact absurd hA h3
          · exact absurd hC h3
          · exact absurd hD h3
          · exact absurd h2 h3
          · -- byte 3 differs
            have := firstMismatch_le_of_ne s.window s.strstart cm MAX_MATCH
              (2 + 1) 3 (by simp only [MAX_MATCH]; omega) (by omega)
              (by simp only [MAX_MATCH]; omega) (fun he => h3 he.symm)
            omega
        rw [std1.loopT, std3.loopT, if_neg (show ¬ cm ≥ s.strstart from by omega),
          if_neg (by
            push_neg
            exact ⟨hA, hB, hC, hD⟩ : ¬ (s.window (cm + bl) ≠ s.window (s.strstart + bl) ∨
              s.window (cm + bl - 1) ≠ s.window (s.strstart + bl - 1) ∨
              s.window cm ≠ s.window s.strstart ∨
              s.window (cm + 1) ≠ s.window (s.strstart + 1))),
          if_pos hq3,
          if_neg (by omega : ¬ std1.scanLoop s.window s.strstart cm 32 2 > bl),
          if_neg htrig]
        by_cases hn : s.prev (cm &&& s.w_mask) > limitOf s ∧ dec32 cl ≠ 0
        · obtain ⟨hn1, hn2⟩ := hn
          rw [if_pos ⟨hn1, hn2⟩, if_pos hn1, if_pos hn2]
          rw [ih (s.prev (cm &&& s.w_mask)) (dec32 cl) bl ms hbl
            (hprev (cm &&& s.w_mask))]
        · rw [if_neg hn]
          rcases not_and_or.mp hn with hn1 | hn2
          · rw [if_neg hn1]
          · by_cases hn1 : s.prev (cm &&& s.w_mask) > limitOf s
            · rw [if_pos hn1, if_neg hn2]
            · rw [if_neg hn1]
      · -- both probes pass: the extension lengths coincide
        have hq3' := hq3
        rw [word4_ne_iff, word4_ne_iff, ec1, ec2, ec3, es1, es2, es3] at hq3'
        push_neg at hq3'
        obtain ⟨⟨g0, g1, g2, g3⟩, f0, f1, f2, f3⟩ := hq3'
        have hlen3 : min (std3.scanBlocks s.window s.strstart cm 32 4) MAX_MATCH =
            std1.scanLoop s.window s.strstart cm 32 2 := by
          rw [scanBlocksCap_eq_firstMismatch s.window s.strstart cm 32 4 (by omega)
            (by omega) (by omega),
            scanLoop_eq_firstMismatch s.window s.strstart cm 32 2 (by omega)
              (by omega) (by omega)]
          exact (firstMismatch_step_eq s.window s.strstart cm 3
            (by simp only [MAX_MATCH]; omega) f3.symm).symm
        rw [std1.loopT, std3.loopT, if_neg (show ¬ cm ≥ s.strstart from by omega),
          if_neg (by
            push_neg
            exact ⟨hA, hB, hC, hD⟩ : ¬ (s.window (cm + bl) ≠ s.window (s.strstart + bl) ∨
              s.window (cm + bl - 1) ≠ s.window (s.strstart + bl - 1) ∨
              s.window cm ≠ s.window s.strstart ∨
              s.window (cm + 1) ≠ s.window (s.strstart + 1))),
          if_neg hq3, hlen3]
        by_cases himp : std1.scanLoop s.window s.strstart cm 32 2 > bl
        · by_cases hnice : std1.scanLoop s.window s.strstart cm 32 2 ≥
              min s.nice_match s.lookahead
          · rw [if_pos himp, if_pos himp, if_pos hnice, if_pos hnice]
          · rw [if_pos himp, if_pos himp, if_neg hnice, if_neg hnice]
            have hbl' : 3 ≤ std1.scanLoop s.window s.strstart cm 32 2 :=
              std1_scanLoop_ge3 s.window s.strstart cm
            by_cases hn : s.prev (cm &&& s.w_mask) > limitOf s ∧ dec32 cl ≠ 0
            · obtain ⟨hn1, hn2⟩ := hn
              rw [if_pos ⟨hn1, hn2⟩, if_pos hn1, if_pos hn2]
              rw [ih (s.prev (cm &&& s.w_mask)) (dec32 cl)
                (std1.scanLoop s.window s.strstart cm 32 2) cm hbl'
                (hprev (cm &&& s.w_mask))]
            · rw [if_neg hn]
              rcases not_and_or.mp hn with hn1 | hn2
              · rw [if_neg hn1]
              · by_cases hn1 : s.prev (cm &&& s.w_mask) > limitOf s
                · rw [if_pos hn1, if_neg hn2]
                · rw [if_neg hn1]
        · rw [if_neg himp, if_neg himp, if_neg htrig]
          by_cases hn : s.prev (cm &&& s.w_mask) > limitOf s ∧ dec32 cl ≠ 0
          · obtain ⟨hn1, hn2⟩ := hn
            rw [if_pos ⟨hn1, hn2⟩, if_pos hn1, if_pos hn2]
            rw [ih (s.prev (cm &&& s.w_mask)) (dec32 cl) bl ms hbl
              (hprev (cm &&& s.w_mask))]
          · rw [if_neg hn]
            rcases not_and_or.mp hn with hn1 | hn2
            · rw [if_neg hn1]
            · by_cases hn1 : s.prev (cm &&& s.w_mask) > limitOf s
              · rw [if_pos hn1, if_neg hn2]
              · rw [if_neg hn1]

/-! ### C1: equivalence of the variants -/

/-- C1 (amended): under the hash-key invariant — any position whose first two
bytes agree with the scan string also agrees on byte 2 (what `HASH_BITS ≥ 8`
with equal hash keys guarantees, and what the std1 comparator silently
assumes) — the std1 and std2 variants return identical `(length,
match_start)` for every state and chain; and the std3 variant agrees with
them additionally provided `level ≥ TRIGGER_LEVEL` (std3 lacks the low-level
cutoff), `prev_length ≥ 3` (std3's 4-byte probe reads `scan + best_len - 3`),
and every chain entry (and the head) lies below `strstart` (std3 omits the
`cur_match >= strstart` runtime check). -/
theorem claim_C1 (s : DState) (cm : Nat)
    (HH : ∀ p, s.window p = s.window s.strstart →
      s.window (p + 1) = s.window (s.strstart + 1) →
      s.window (p + 2) = s.window (s.strstart + 2)) :
    std2.longest_match s cm = std1.longest_match s cm ∧
    (¬ s.level < s.trigger_level → 3 ≤ s.prev_length →
      (∀ i, s.prev i < s.strstart) → cm < s.strstart →
      std3.longest_match s cm = std1.longest_match s cm) := by
  constructor
  · simp only [std1.longest_match, std2.longest_match, std1.longest_matchT]
    rw [std1_std2_lockstep s HH (s.max_chain_length + 2 ^ 32) cm
      (if (if s.prev_length ≠ 0 then s.prev_length else 1) ≥ s.good_match
        then s.max_chain_length >>> 2 else s.max_chain_length)
      (if s.prev_length ≠ 0 then s.prev_length else 1) s.match_start
      (by split_ifs <;> omega)]
    cases std1.loopT s (s.max_chain_length + 2 ^ 32) cm
      (if (if s.prev_length ≠ 0 then s.prev_length else 1) ≥ s.good_match
        then s.max_chain_length >>> 2 else s.max_chain_length)
      (if s.prev_length ≠ 0 then s.prev_length else 1)
      (s.window (s.strstart + (if s.prev_length ≠ 0 then s.prev_length else 1) - 1))
      (s.window (s.strstart + (if s.prev_length ≠ 0 then s.prev_length else 1)))
      s.match_start <;> rfl
  · intro ht h3 hp hcm
    have hne : s.prev_length ≠ 0 := by omega
    simp only [std1.longest_match, std3.longest_match, std1.longest_matchT,
      std3.longest_matchT, if_pos hne]
    rw [std1_std3_lockstep s HH ht hp (s.max_chain_length + 2 ^ 32) cm
      (if s.prev_length ≥ s.good_match then s.max_chain_length >>> 2
        else s.max_chain_length)
      s.prev_length s.match_start h3 hcm]

/-- C1 counterexample: at state `S1` — whose single chain candidate agrees
with the scan string on bytes 0, 1, 3, …, 7 but differs at byte 2 — the std1
variant (which never compares byte 2) reports a length-8 match at position 10
while the std2 variant (which does compare byte 2) finds no improvement, so
the results differ: the claim as stated (identical results for every fixed
input state) is false. -/
theorem claim_C1_cex :
    std1.longest_match S1 10 = some (8, 10) ∧
    std2.longest_match S1 10 = some (4, 999) ∧
    std1.longest_match S1 10 ≠ std2.longest_match S1 10 := by decide

/-- C1 witness. -/
theorem claim_C1_witness :
    std2.longest_match SC1 40 = std1.longest_match SC1 40 ∧
    std3.longest_match SC1 40 = std1.longest_match SC1 40 :=
  ⟨(claim_C1 SC1 40 (fun p _ _ => rfl)).1,
    (claim_C1 SC1 40 (fun p _ _ => rfl)).2 (by decide) (by decide)
      (fun i => by show (40 : Nat) < 50; decide) (by decide)⟩


end ZlibNg
